import Mathlib

/-!
# Tracker firmware: advertisement encoder and validation signer

A shallow embedding of `src/firmware/pseudocode_tracker.c`.

The two procedures `advertise_start` and `on_read_validation_char` are
translated statement by statement into functions on an explicit `World`:
the memory objects the C code names (globals, local arrays, the two 32-bit
scalars whose address is taken, the output buffer of the caller), a log of
every byte access and a log of every call into a collaborator.

Conventions of the embedding:

* a byte is a `Nat`; a `uint32_t` is a `Nat` reduced modulo `2 ^ 32 = 4294967296`;
  `int maxLen` is an `Int`;
* `memcpy (&manuf[9], &crc, 4)` copies the object representation of `crc`,
  so the byte order of the target is a parameter (`Env.endian`);
* a local array declared without initialiser starts with indeterminate
  contents, supplied as the parameter `junk`;
* the collaborators that the source only calls (`crc32`,
  `hmac_sha256_truncate`, `get_unix_time`) are parameters, collected in `Env`;
* a write at an index beyond the end of an array is recorded in the access
  log and changes no modelled object.
-/

namespace Tracker

/-! ## Data model -/

/-- Byte order of the target: `memcpy` of a `uint32_t` copies its object representation. -/
inductive Endian
  | little
  | big
  deriving DecidableEq

/-- Object representation of a `uint32_t` value: its four bytes, lowest address first. -/
def u32_bytes (e : Endian) (v : Nat) : List Nat :=
  match e with
  | .little => [v % 256, v / 256 % 256, v / 65536 % 256, v / 16777216 % 256]
  | .big => [v / 16777216 % 256, v / 65536 % 256, v / 256 % 256, v % 256]

/-- The memory objects named by the source: the globals `SHORT_ID` and `secret_key`, the locals
`manuf`, `crc`, `payload`, `ts`, `sig`, and the buffer `outBuf` points to. -/
inductive Obj
  | SHORT_ID
  | secret_key
  | manuf
  | crc
  | payload
  | ts
  | sig
  | outBuf
  deriving DecidableEq

/-- `const uint8_t SERVICE_UUID[16]`. -/
def SERVICE_UUID : List Nat :=
  [0x00, 0x00, 0xFE, 0xED, 0x00, 0x00, 0x10, 0x00, 0x80, 0x00, 0x00, 0x80, 0x5F, 0x9B, 0x34, 0xFB]

/-- `const uint16_t MANUFACTURER_ID`. -/
def MANUFACTURER_ID : Nat := 0x1234

/-- The collaborators the source calls but does not define.

* `crc32 data` is the value of `crc32 (buf, len)` on the `len` bytes read;
* `hmac_sha256_truncate key keyLen msg outLen` is `some tag` when the primitive computes the
  tag `tag` of `msg` under `key`, of which it writes the first `outLen` bytes to its output
  buffer, and `none` when it fails and writes nothing;
* `get_unix_time k` is the value of the `k`-th reading of the clock. -/
structure Env where
  endian : Endian
  crc32 : List Nat → Nat
  hmac_sha256_truncate : List Nat → Nat → List Nat → Nat → Option (List Nat)
  get_unix_time : Nat → Nat

/-- Who performs a byte access: a plain assignment, `memcpy`, or one of the collaborators. -/
inductive Who
  | stmt
  | memcpy
  | crc32
  | hmac
  | radio
  deriving DecidableEq

/-- One byte access: who, write or read, which object, which index. -/
structure Access where
  who : Who
  wr : Bool
  obj : Obj
  idx : Nat
  deriving DecidableEq

/-- One call into a collaborator, with the bytes it was handed. -/
inductive Call
  | get_unix_time
  | crc32 (data : List Nat) (len : Nat)
  | hmac_sha256_truncate (key : List Nat) (keyLen : Nat) (msg : List Nat) (msgLen : Nat)
      (outLen : Nat)
  | ble_advertise_with_service_and_manufacturer (uuid : List Nat) (mid : Nat) (data : List Nat)
      (len : Nat)
  deriving DecidableEq

/-- State of the device and of its surroundings. -/
structure World where
  mem : Obj → List Nat
  secret_len : Nat
  clock_reads : Nat
  accesses : List Access
  calls : List Call

/-! ## Memory operations -/

/-- The `n` consecutive indices starting at `off`. -/
def idxs (off : Nat) : Nat → List Nat
  | 0 => []
  | n + 1 => off :: idxs (off + 1) n

/-- The `n` bytes of `l` from index `off` on. -/
def readBytes (l : List Nat) (off n : Nat) : List Nat :=
  (idxs off n).map (fun i => l.getD i 0)

/-- Store `bs` into `l` from index `off` on; a byte that falls beyond the end is not stored. -/
def writeBytes (l : List Nat) (off : Nat) : List Nat → List Nat
  | [] => l
  | b :: bs => writeBytes (l.set off b) (off + 1) bs

/-- Replace the contents of object `o`. -/
def World.put (w : World) (o : Obj) (bs : List Nat) : World :=
  { w with mem := Function.update w.mem o bs }

/-- Append to the access log. -/
def World.touch (w : World) (who : Who) (wr : Bool) (o : Obj) (is : List Nat) : World :=
  { w with accesses := w.accesses ++ is.map (fun i => Access.mk who wr o i) }

/-- Append to the call log. -/
def World.called (w : World) (c : Call) : World :=
  { w with calls := w.calls ++ [c] }

/-- Declaration `uint8_t o[n];` of a local array: `n` bytes of indeterminate content. -/
def alloc (o : Obj) (n : Nat) (junk : Nat → Nat) (w : World) : World :=
  w.put o ((idxs 0 n).map junk)

/-- Assignment `o[i] = b;`. -/
def store (o : Obj) (i : Nat) (b : Nat) (w : World) : World :=
  (w.put o ((w.mem o).set i b)).touch Who.stmt true o [i]

/-- Definition `uint32_t o = v;` of a scalar whose address is taken later. -/
def store_u32 (e : Endian) (o : Obj) (v : Nat) (w : World) : World :=
  w.put o (u32_bytes e (v % 4294967296))

/-- Call `memcpy (&dst[doff], &src[soff], n)`. -/
def memcpy (dst : Obj) (doff : Nat) (src : Obj) (soff : Nat) (n : Nat) (w : World) : World :=
  ((w.put dst (writeBytes (w.mem dst) doff (readBytes (w.mem src) soff n))).touch
    Who.memcpy false src (idxs soff n)).touch Who.memcpy true dst (idxs doff n)

/-- Call `crc32 (buf, len)`: the collaborator reads `buf[0 .. len-1]`. -/
def call_crc32 (E : Env) (buf : Obj) (len : Nat) (w : World) : Nat × World :=
  (E.crc32 (readBytes (w.mem buf) 0 len),
    (w.touch Who.crc32 false buf (idxs 0 len)).called
      (Call.crc32 (readBytes (w.mem buf) 0 len) len))

/-- Call `get_unix_time ()`. -/
def call_get_unix_time (E : Env) (w : World) : Nat × World :=
  (E.get_unix_time w.clock_reads,
    { w with clock_reads := w.clock_reads + 1, calls := w.calls ++ [Call.get_unix_time] })

/-- Call `hmac_sha256_truncate (key, keyLen, msg, msgLen, out, outLen)`: the collaborator reads
`msg[0 .. msgLen-1]` and, unless it fails, writes its tag to `out[0 .. outLen-1]`. The source
uses it as a statement, so whatever status it reports is dropped. -/
def call_hmac_sha256_truncate (E : Env) (key : Obj) (keyLen : Nat) (msg : Obj) (msgLen : Nat)
    (out : Obj) (outLen : Nat) (w : World) : World :=
  let m := readBytes (w.mem msg) 0 msgLen
  let w1 := (w.touch Who.hmac false msg (idxs 0 msgLen)).called
    (Call.hmac_sha256_truncate (w.mem key) keyLen m msgLen outLen)
  match E.hmac_sha256_truncate (w.mem key) keyLen m outLen with
  | none => w1
  | some tag =>
    (w1.put out (writeBytes (w1.mem out) 0 (tag.take outLen))).touch Who.hmac true out
      (idxs 0 (min tag.length outLen))

/-- Call `ble_advertise_with_service_and_manufacturer (uuid, mid, buf, len)`: the radio
transport is handed `buf[0 .. len-1]`. -/
def call_ble_advertise (uuid : List Nat) (mid : Nat) (buf : Obj) (len : Nat) (w : World) :
    World :=
  (w.touch Who.radio false buf (idxs 0 len)).called
    (Call.ble_advertise_with_service_and_manufacturer uuid mid (readBytes (w.mem buf) 0 len) len)

/-! ## The two procedures -/

/-- The procedure `advertise_start` of the source. -/
def advertise_start (E : Env) (junk : Obj → Nat → Nat) (w : World) : World :=
  -- uint8_t manuf[12];
  let w := alloc Obj.manuf 12 (junk Obj.manuf) w
  -- manuf[0] = 0x01; manuf[1] = 0x01; manuf[2] = 0x00;
  let w := store Obj.manuf 0 0x01 w
  let w := store Obj.manuf 1 0x01 w
  let w := store Obj.manuf 2 0x00 w
  -- memcpy(&manuf[3], SHORT_ID, 6);
  let w := memcpy Obj.manuf 3 Obj.SHORT_ID 0 6 w
  -- uint32_t crc = crc32(manuf, 9);
  let r := call_crc32 E Obj.manuf 9 w
  let w := store_u32 E.endian Obj.crc r.1 r.2
  -- memcpy(&manuf[9], &crc, 4);
  let w := memcpy Obj.manuf 9 Obj.crc 0 4 w
  -- ble_advertise_with_service_and_manufacturer(SERVICE_UUID, MANUFACTURER_ID, manuf,
  --   sizeof(manuf));
  call_ble_advertise SERVICE_UUID MANUFACTURER_ID Obj.manuf 12 w

/-- The read handler `on_read_validation_char (outBuf, maxLen)` of the source; the buffer
`outBuf` points to is the object `Obj.outBuf` of the world. Returns the `int` result and the
world after the call. -/
def on_read_validation_char (E : Env) (junk : Obj → Nat → Nat) (maxLen : Int) (w : World) :
    Int × World :=
  -- uint32_t ts = get_unix_time();
  let r := call_get_unix_time E w
  let w := store_u32 E.endian Obj.ts r.1 r.2
  -- uint8_t payload[18];
  let w := alloc Obj.payload 18 (junk Obj.payload) w
  -- memcpy(payload, SHORT_ID, 6);
  let w := memcpy Obj.payload 0 Obj.SHORT_ID 0 6 w
  -- memcpy(&payload[6], &ts, 4);
  let w := memcpy Obj.payload 6 Obj.ts 0 4 w
  -- uint8_t sig[8];
  let w := alloc Obj.sig 8 (junk Obj.sig) w
  -- hmac_sha256_truncate(secret_key, secret_len, payload, 10, sig, 8);
  let w := call_hmac_sha256_truncate E Obj.secret_key w.secret_len Obj.payload 10 Obj.sig 8 w
  -- memcpy(&payload[10], sig, 8);
  let w := memcpy Obj.payload 10 Obj.sig 0 8 w
  -- int len = 18;
  let len : Int := 18
  -- if (maxLen < len) return 0;
  if maxLen < len then (0, w)
  else
    -- memcpy(outBuf, payload, len); return len;
    (len, memcpy Obj.outBuf 0 Obj.payload 0 18 w)

/-- The payload handed to the radio transport by the calls logged in `w`. -/
def radio_payloads (w : World) : List (List Nat) :=
  w.calls.filterMap fun c =>
    match c with
    | Call.ble_advertise_with_service_and_manufacturer _ _ data _ => some data
    | _ => none

/-- The world of `on_read_validation_char` when it reaches the capacity check: all its
statements up to and including `memcpy (&payload[10], sig, 8)`. -/
def validation_built (E : Env) (junk : Obj → Nat → Nat) (w : World) : World :=
  let r := call_get_unix_time E w
  let w := store_u32 E.endian Obj.ts r.1 r.2
  let w := alloc Obj.payload 18 (junk Obj.payload) w
  let w := memcpy Obj.payload 0 Obj.SHORT_ID 0 6 w
  let w := memcpy Obj.payload 6 Obj.ts 0 4 w
  let w := alloc Obj.sig 8 (junk Obj.sig) w
  let w := call_hmac_sha256_truncate E Obj.secret_key w.secret_len Obj.payload 10 Obj.sig 8 w
  memcpy Obj.payload 10 Obj.sig 0 8 w

/-- The signature bytes the read handler finds in `sig` after the call of the MAC primitive. -/
def sig_after (junk : Obj → Nat → Nat) : Option (List Nat) → List Nat
  | none => (idxs 0 8).map (junk Obj.sig)
  | some tag => writeBytes ((idxs 0 8).map (junk Obj.sig)) 0 (tag.take 8)

/-- The byte accesses of one run of `advertise_start`, in order. -/
def advertise_accesses : List Access :=
  [Access.mk Who.stmt true Obj.manuf 0, Access.mk Who.stmt true Obj.manuf 1,
    Access.mk Who.stmt true Obj.manuf 2] ++
  (idxs 0 6).map (Access.mk Who.memcpy false Obj.SHORT_ID) ++
  (idxs 3 6).map (Access.mk Who.memcpy true Obj.manuf) ++
  (idxs 0 9).map (Access.mk Who.crc32 false Obj.manuf) ++
  (idxs 0 4).map (Access.mk Who.memcpy false Obj.crc) ++
  (idxs 9 4).map (Access.mk Who.memcpy true Obj.manuf) ++
  (idxs 0 12).map (Access.mk Who.radio false Obj.manuf)

/-- The byte accesses of one run of `on_read_validation_char` up to its capacity check, in
order, when the MAC primitive writes `k` bytes of signature. -/
def validation_accesses (k : Nat) : List Access :=
  (idxs 0 6).map (Access.mk Who.memcpy false Obj.SHORT_ID) ++
  (idxs 0 6).map (Access.mk Who.memcpy true Obj.payload) ++
  (idxs 0 4).map (Access.mk Who.memcpy false Obj.ts) ++
  (idxs 6 4).map (Access.mk Who.memcpy true Obj.payload) ++
  (idxs 0 10).map (Access.mk Who.hmac false Obj.payload) ++
  (idxs 0 k).map (Access.mk Who.hmac true Obj.sig) ++
  (idxs 0 8).map (Access.mk Who.memcpy false Obj.sig) ++
  (idxs 10 8).map (Access.mk Who.memcpy true Obj.payload)

/-- The payload of the last advertisement handed to the radio transport, if any. -/
def last_radio_payload (w : World) : Option (List Nat) :=
  (radio_payloads w).getLast?

/-- Decoder of a little-endian unsigned integer: least significant byte first. -/
def le_decode : List Nat → Nat
  | [] => 0
  | b :: bs => b + 256 * le_decode bs

/-! ## Checksum modelled from the spec -/

/-- One bit of the reflected CRC-32 register update. -/
def crc_step1 (s : Nat) : Nat :=
  (s >>> 1) ^^^ (if s % 2 = 1 then 0xEDB88320 else 0)

/-- Eight bit steps: the register update for one byte already folded into the register. -/
def crc_step8 (s : Nat) : Nat :=
  crc_step1 (crc_step1 (crc_step1 (crc_step1 (crc_step1 (crc_step1 (crc_step1 (crc_step1 s)))))))

/-- The CRC register after the bytes `m`, started at `s`. -/
def crc_raw (s : Nat) (m : List Nat) : Nat :=
  m.foldl (fun s b => crc_step8 (s ^^^ b)) s

/-- Modelled from the spec: the function `crc32` is called by the source and defined nowhere in
it. The spec asks for a CRC32 over the 9 bytes with a standard polynomial, fixed and documented;
this is the CRC-32 of IEEE 802.3 and zlib (reflected polynomial `0xEDB88320`, initial register
and final xor `0xFFFFFFFF`). -/
def crc32_std (m : List Nat) : Nat :=
  crc_raw 0xFFFFFFFF m ^^^ 0xFFFFFFFF

/-! ## Concrete worlds used to evaluate the code -/

/-- A little-endian target with the standard checksum, a clock that reads 100 and a MAC
primitive that fails. -/
def env_le_failing : Env :=
  { endian := Endian.little
    crc32 := crc32_std
    hmac_sha256_truncate := fun _ _ _ _ => none
    get_unix_time := fun _ => 100 }

/-- A big-endian target, otherwise as `env_le_failing`. -/
def env_be_failing : Env :=
  { env_le_failing with endian := Endian.big }

/-- A little-endian target whose MAC primitive delivers the tag `A0 A1 .. A7 A8 ..` (ten
bytes, of which eight are asked for). -/
def env_le : Env :=
  { env_le_failing with
    hmac_sha256_truncate := fun _ _ _ _ =>
      some [0xA0, 0xA1, 0xA2, 0xA3, 0xA4, 0xA5, 0xA6, 0xA7, 0xA8, 0xA9] }

/-- A device with `SHORT_ID = 01 02 03 04 05 06`, the key `"test-key"` and a reader buffer of
`n` bytes `AA`. -/
def world_example (n : Nat) : World :=
  { mem := fun o =>
      match o with
      | Obj.SHORT_ID => [1, 2, 3, 4, 5, 6]
      | Obj.secret_key => [0x74, 0x65, 0x73, 0x74, 0x2D, 0x6B, 0x65, 0x79]
      | Obj.outBuf => List.replicate n 0xAA
      | _ => []
    secret_len := 8
    clock_reads := 0
    accesses := []
    calls := [] }

/-- Indeterminate stack contents used in the examples: byte `i` of a fresh local is `C0 + i`. -/
def junk_example : Obj → Nat → Nat :=
  fun _ i => 0xC0 + i

/-- The device of `world_example` with byte 3 of its identifier changed:
`SHORT_ID = 01 02 03 FF 05 06`. -/
def world_example_ff (n : Nat) : World :=
  { world_example n with
    mem := Function.update (world_example n).mem Obj.SHORT_ID [1, 2, 3, 0xFF, 5, 6] }

/-- The target `env_le` one second later: its clock reads 101. -/
def env_le_later : Env :=
  { env_le with get_unix_time := fun _ => 101 }

/-- The device of `world_example` later in its life: the clock has been read 7 times and the
call log is not empty. -/
def world_example_later (n : Nat) : World :=
  { world_example n with clock_reads := 7, calls := [Call.get_unix_time] }

/-! # Theorems -/

/-! ## Lists and byte strings -/

theorem list_length_six {l : List Nat} (h : l.length = 6) :
    ∃ a b c d e f, l = [a, b, c, d, e, f] := by
  match l, h with
  | [a, b, c, d, e, f], _ => exact ⟨a, b, c, d, e, f, rfl⟩

theorem u32_bytes_four (e : Endian) (v : Nat) : ∃ p q r s, u32_bytes e v = [p, q, r, s] := by
  cases e <;> exact ⟨_, _, _, _, rfl⟩

theorem writeBytes_length (bs : List Nat) (l : List Nat) (off : Nat) :
    (writeBytes l off bs).length = l.length := by
  induction bs generalizing l off with
  | nil => rfl
  | cons b bs ih => simp [writeBytes, ih]

/-- Writing inside the array replaces exactly the bytes written. -/
theorem writeBytes_eq (bs : List Nat) (l : List Nat) (off : Nat)
    (h : off + bs.length ≤ l.length) :
    writeBytes l off bs = l.take off ++ bs ++ l.drop (off + bs.length) := by
  induction bs generalizing l off with
  | nil => simp [writeBytes]
  | cons b bs ih =>
    have hlen : off + 1 + bs.length ≤ (l.set off b).length := by
      simp only [List.length_set, List.length_cons] at h ⊢; omega
    have hoff : off < l.length := by simp only [List.length_cons] at h; omega
    rw [writeBytes, ih _ _ hlen, List.set_eq_take_append_cons_drop, if_pos hoff]
    have h1 : (List.take off l ++ b :: List.drop (off + 1) l).take (off + 1)
        = List.take off l ++ [b] := by
      rw [List.take_append_eq_append_take]
      simp [List.length_take, Nat.min_eq_left (Nat.le_of_lt hoff)]
    have h2 : (List.take off l ++ b :: List.drop (off + 1) l).drop (off + 1 + bs.length)
        = List.drop (off + (b :: bs).length) l := by
      rw [List.drop_append_eq_append_drop]
      simp only [List.length_take, Nat.min_eq_left (Nat.le_of_lt hoff), List.length_cons]
      have e1 : off + 1 + bs.length - off = bs.length + 1 := by omega
      have e2 : List.drop (off + 1 + bs.length) (List.take off l) = [] := by
        apply List.drop_eq_nil_of_le
        simp only [List.length_take]; omega
      rw [e1, e2, List.drop_succ_cons, List.drop_drop, List.nil_append]
      congr 1; omega
    rw [h1, h2]; simp

theorem writeBytes_take (bs : List Nat) (l : List Nat) (h : bs.length ≤ l.length) :
    (writeBytes l 0 bs).take bs.length = bs := by
  rw [writeBytes_eq bs l 0 (by omega)]
  simp

theorem writeBytes_drop (bs : List Nat) (l : List Nat) (h : bs.length ≤ l.length) :
    (writeBytes l 0 bs).drop bs.length = l.drop bs.length := by
  rw [writeBytes_eq bs l 0 (by omega)]
  simp

/-! ## What the two procedures compute -/

/-- The capacity check is the last decision of the read handler. -/
theorem on_read_validation_char_eq (E : Env) (junk : Obj → Nat → Nat) (maxLen : Int)
    (w : World) :
    on_read_validation_char E junk maxLen w =
      if maxLen < 18 then (0, validation_built E junk w)
      else (18, memcpy Obj.outBuf 0 Obj.payload 0 18 (validation_built E junk w)) := rfl

/-- The array `manuf` at the end of `advertise_start`: nine bytes of header and identity and the
three checksum bytes that fit. -/
theorem advertise_start_manuf (E : Env) (junk : Obj → Nat → Nat) (w : World)
    (a b c d e f : Nat) (h : w.mem Obj.SHORT_ID = [a, b, c, d, e, f]) :
    (advertise_start E junk w).mem Obj.manuf =
      [1, 1, 0, a, b, c, d, e, f] ++
        (u32_bytes E.endian (E.crc32 [1, 1, 0, a, b, c, d, e, f] % 4294967296)).take 3 := by
  obtain ⟨p, q, r, s, hu⟩ :=
    u32_bytes_four E.endian (E.crc32 [1, 1, 0, a, b, c, d, e, f] % 4294967296)
  simp [advertise_start, alloc, store, store_u32, memcpy, call_crc32, call_ble_advertise,
    World.put, World.touch, World.called, idxs, readBytes, writeBytes, Function.update, h, hu]

/-- The calls `advertise_start` makes, in order. -/
theorem advertise_start_calls (E : Env) (junk : Obj → Nat → Nat) (w : World)
    (a b c d e f : Nat) (h : w.mem Obj.SHORT_ID = [a, b, c, d, e, f]) :
    (advertise_start E junk w).calls = w.calls ++
      [Call.crc32 [1, 1, 0, a, b, c, d, e, f] 9,
       Call.ble_advertise_with_service_and_manufacturer SERVICE_UUID MANUFACTURER_ID
        ([1, 1, 0, a, b, c, d, e, f] ++
          (u32_bytes E.endian (E.crc32 [1, 1, 0, a, b, c, d, e, f] % 4294967296)).take 3) 12] := by
  obtain ⟨p, q, r, s, hu⟩ :=
    u32_bytes_four E.endian (E.crc32 [1, 1, 0, a, b, c, d, e, f] % 4294967296)
  simp [advertise_start, alloc, store, store_u32, memcpy, call_crc32, call_ble_advertise,
    World.put, World.touch, World.called, idxs, readBytes, writeBytes, Function.update, h, hu]

/-- The payload `advertise_start` hands to the radio transport. -/
theorem advertise_start_payload (E : Env) (junk : Obj → Nat → Nat) (w : World)
    (a b c d e f : Nat) (h : w.mem Obj.SHORT_ID = [a, b, c, d, e, f]) :
    last_radio_payload (advertise_start E junk w) = some
      ([1, 1, 0, a, b, c, d, e, f] ++
        (u32_bytes E.endian (E.crc32 [1, 1, 0, a, b, c, d, e, f] % 4294967296)).take 3) := by
  simp [last_radio_payload, radio_payloads, advertise_start_calls E junk w a b c d e f h,
    List.filterMap_append]

/-- The checksum `advertise_start` computes, as stored in the local `crc`. -/
theorem advertise_start_crc (E : Env) (junk : Obj → Nat → Nat) (w : World)
    (a b c d e f : Nat) (h : w.mem Obj.SHORT_ID = [a, b, c, d, e, f]) :
    (advertise_start E junk w).mem Obj.crc =
      u32_bytes E.endian (E.crc32 [1, 1, 0, a, b, c, d, e, f] % 4294967296) := by
  simp [advertise_start, alloc, store, store_u32, memcpy, call_crc32, call_ble_advertise,
    World.put, World.touch, World.called, idxs, readBytes, writeBytes, Function.update, h]

theorem list_length_eight {l : List Nat} (h : l.length = 8) :
    ∃ a b c d e f g k, l = [a, b, c, d, e, f, g, k] := by
  match l, h with
  | [a, b, c, d, e, f, g, k], _ => exact ⟨a, b, c, d, e, f, g, k, rfl⟩

theorem sig_after_length (junk : Obj → Nat → Nat) (res : Option (List Nat)) :
    (sig_after junk res).length = 8 := by
  cases res <;> simp [sig_after, writeBytes_length, idxs]

/-- The array `payload` when the read handler reaches the capacity check. -/
theorem validation_built_payload (E : Env) (junk : Obj → Nat → Nat) (w : World)
    (a b c d e f : Nat) (h : w.mem Obj.SHORT_ID = [a, b, c, d, e, f]) :
    (validation_built E junk w).mem Obj.payload =
      [a, b, c, d, e, f] ++ u32_bytes E.endian (E.get_unix_time w.clock_reads % 4294967296) ++
        sig_after junk (E.hmac_sha256_truncate (w.mem Obj.secret_key) w.secret_len
          ([a, b, c, d, e, f] ++
            u32_bytes E.endian (E.get_unix_time w.clock_reads % 4294967296)) 8) := by
  obtain ⟨p, q, r, s, hu⟩ :=
    u32_bytes_four E.endian (E.get_unix_time w.clock_reads % 4294967296)
  have hlen := sig_after_length junk (E.hmac_sha256_truncate (w.mem Obj.secret_key) w.secret_len
    ([a, b, c, d, e, f] ++ u32_bytes E.endian (E.get_unix_time w.clock_reads % 4294967296)) 8)
  obtain ⟨s0, s1, s2, s3, s4, s5, s6, s7, hs⟩ := list_length_eight hlen
  rw [hs]
  rw [hu] at hs
  simp only [List.cons_append, List.nil_append] at hs
  simp only [validation_built, alloc, store_u32, memcpy, call_get_unix_time,
    call_hmac_sha256_truncate, World.put, World.touch, World.called, idxs, readBytes,
    writeBytes, Function.update, h, hu]
  simp
  split
  · rename_i hres
    rw [hres] at hs
    simp only [sig_after, idxs, List.map] at hs
    simp [hs]
  · rename_i tag hres
    rw [hres] at hs
    simp only [sig_after, idxs, List.map] at hs
    simp [hs]

/-- The read handler leaves the buffer of the caller alone until the capacity check. -/
theorem validation_built_outBuf (E : Env) (junk : Obj → Nat → Nat) (w : World) :
    (validation_built E junk w).mem Obj.outBuf = w.mem Obj.outBuf := by
  simp only [validation_built, alloc, store_u32, memcpy, call_get_unix_time,
    call_hmac_sha256_truncate, World.put, World.touch, World.called]
  split <;> simp [Function.update]

/-- The read handler assigns neither global up to the capacity check. -/
theorem validation_built_globals (E : Env) (junk : Obj → Nat → Nat) (w : World) :
    (validation_built E junk w).mem Obj.SHORT_ID = w.mem Obj.SHORT_ID ∧
    (validation_built E junk w).mem Obj.secret_key = w.mem Obj.secret_key ∧
    (validation_built E junk w).secret_len = w.secret_len := by
  simp only [validation_built, alloc, store_u32, memcpy, call_get_unix_time,
    call_hmac_sha256_truncate, World.put, World.touch, World.called]
  split <;> simp [Function.update]

/-- The calls the read handler has made when it reaches the capacity check. -/
theorem validation_built_calls (E : Env) (junk : Obj → Nat → Nat) (w : World)
    (a b c d e f : Nat) (h : w.mem Obj.SHORT_ID = [a, b, c, d, e, f]) :
    (validation_built E junk w).calls = w.calls ++
      [Call.get_unix_time,
       Call.hmac_sha256_truncate (w.mem Obj.secret_key) w.secret_len
        ([a, b, c, d, e, f] ++ u32_bytes E.endian (E.get_unix_time w.clock_reads % 4294967296))
        10 8] := by
  obtain ⟨p, q, r, s, hu⟩ :=
    u32_bytes_four E.endian (E.get_unix_time w.clock_reads % 4294967296)
  simp only [validation_built, alloc, store_u32, memcpy, call_get_unix_time,
    call_hmac_sha256_truncate, World.put, World.touch, World.called, idxs, readBytes,
    writeBytes, Function.update, h, hu]
  split <;> simp

/-- The calls of a whole run of the read handler, whatever the capacity: one reading of the
clock, then one call of the MAC primitive on the 10 bytes `SHORT_ID ‖ ts`. -/
theorem on_read_validation_char_calls (E : Env) (junk : Obj → Nat → Nat) (maxLen : Int)
    (w : World) (a b c d e f : Nat) (h : w.mem Obj.SHORT_ID = [a, b, c, d, e, f]) :
    (on_read_validation_char E junk maxLen w).2.calls = w.calls ++
      [Call.get_unix_time,
       Call.hmac_sha256_truncate (w.mem Obj.secret_key) w.secret_len
        ([a, b, c, d, e, f] ++ u32_bytes E.endian (E.get_unix_time w.clock_reads % 4294967296))
        10 8] := by
  have hc := validation_built_calls E junk w a b c d e f h
  rw [on_read_validation_char_eq]
  split
  · exact hc
  · simpa [memcpy, World.put, World.touch] using hc

/-- The buffer of the caller after a read with enough capacity: the 18 bytes of `payload`
stored from index 0 on. -/
theorem on_read_validation_char_out (E : Env) (junk : Obj → Nat → Nat) (maxLen : Int)
    (w : World) (a b c d e f : Nat) (h : w.mem Obj.SHORT_ID = [a, b, c, d, e, f])
    (hcap : 18 ≤ maxLen) :
    (on_read_validation_char E junk maxLen w).2.mem Obj.outBuf =
      writeBytes (w.mem Obj.outBuf) 0
        ([a, b, c, d, e, f] ++ u32_bytes E.endian (E.get_unix_time w.clock_reads % 4294967296) ++
          sig_after junk (E.hmac_sha256_truncate (w.mem Obj.secret_key) w.secret_len
            ([a, b, c, d, e, f] ++
              u32_bytes E.endian (E.get_unix_time w.clock_reads % 4294967296)) 8)) := by
  have hP := validation_built_payload E junk w a b c d e f h
  have hO := validation_built_outBuf E junk w
  have hlen := sig_after_length junk (E.hmac_sha256_truncate (w.mem Obj.secret_key) w.secret_len
    ([a, b, c, d, e, f] ++ u32_bytes E.endian (E.get_unix_time w.clock_reads % 4294967296)) 8)
  obtain ⟨s0, s1, s2, s3, s4, s5, s6, s7, hs⟩ := list_length_eight hlen
  obtain ⟨p, q, r, s, hu⟩ :=
    u32_bytes_four E.endian (E.get_unix_time w.clock_reads % 4294967296)
  rw [hs] at hP ⊢
  rw [hu] at hP ⊢
  rw [on_read_validation_char_eq, if_neg (by omega)]
  simp only [memcpy, World.put, World.touch, Function.update, hP, hO]
  simp [readBytes, idxs]

/-- The result of the read handler depends on the capacity alone. -/
theorem on_read_validation_char_ret (E : Env) (junk : Obj → Nat → Nat) (maxLen : Int)
    (w : World) :
    (on_read_validation_char E junk maxLen w).1 = if maxLen < 18 then 0 else 18 := by
  rw [on_read_validation_char_eq]
  split <;> rfl

/-- A delivered tag of at least 8 bytes fills `sig` with its first 8 bytes. -/
theorem sig_after_some (junk : Obj → Nat → Nat) (tag : List Nat) (h : 8 ≤ tag.length) :
    sig_after junk (some tag) = tag.take 8 := by
  have hl : (tag.take 8).length = 8 := by simp [List.length_take, h]
  obtain ⟨s0, s1, s2, s3, s4, s5, s6, s7, hs⟩ := list_length_eight hl
  simp [sig_after, hs, idxs, writeBytes]

/-- The procedure `advertise_start` assigns neither global. -/
theorem advertise_start_globals (E : Env) (junk : Obj → Nat → Nat) (w : World) :
    (advertise_start E junk w).mem Obj.SHORT_ID = w.mem Obj.SHORT_ID ∧
    (advertise_start E junk w).mem Obj.secret_key = w.mem Obj.secret_key ∧
    (advertise_start E junk w).secret_len = w.secret_len := by
  simp [advertise_start, alloc, store, store_u32, memcpy, call_crc32, call_ble_advertise,
    World.put, World.touch, World.called, Function.update]

/-- The byte accesses of `advertise_start`, in order. -/
theorem advertise_start_accesses (E : Env) (junk : Obj → Nat → Nat) (w : World) :
    (advertise_start E junk w).accesses = w.accesses ++ advertise_accesses := by
  simp [advertise_start, alloc, store, store_u32, memcpy, call_crc32, call_ble_advertise,
    World.put, World.touch, World.called, idxs, advertise_accesses]

/-- The array `manuf` has 12 bytes throughout. -/
theorem advertise_start_manuf_length (E : Env) (junk : Obj → Nat → Nat) (w : World) :
    ((advertise_start E junk w).mem Obj.manuf).length = 12 := by
  simp [advertise_start, alloc, store, store_u32, memcpy, call_crc32, call_ble_advertise,
    World.put, World.touch, World.called, idxs, Function.update, writeBytes_length]

/-- The byte accesses of the read handler up to the capacity check, in order. -/
theorem validation_built_accesses (E : Env) (junk : Obj → Nat → Nat) (w : World) :
    ∃ k, k ≤ 8 ∧
      (validation_built E junk w).accesses = w.accesses ++ validation_accesses k := by
  simp only [validation_built, alloc, store_u32, memcpy, call_get_unix_time,
    call_hmac_sha256_truncate, World.put, World.touch, World.called]
  split
  · exact ⟨0, by omega, by simp [validation_accesses, idxs]⟩
  · rename_i tag _
    exact ⟨min tag.length 8, Nat.min_le_right _ _, by simp [validation_accesses, idxs]⟩

theorem mem_idxs (n off i : Nat) : i ∈ idxs off n ↔ off ≤ i ∧ i < off + n := by
  induction n generalizing off with
  | zero => simp [idxs]
  | succ n ih =>
    simp only [idxs, List.mem_cons, ih]
    omega

/-- Every access of the read handler up to the capacity check stays inside the local arrays and
none touches the buffer of the caller. -/
theorem validation_accesses_in_bounds (k : Nat) (hk : k ≤ 8) (x : Access)
    (hx : x ∈ validation_accesses k) :
    x.obj ≠ Obj.outBuf ∧ (x.obj = Obj.payload → x.idx < 18) ∧
    (x.obj = Obj.sig → x.idx < 8) ∧
    (x.who = Who.hmac → x.wr = false → x.obj = Obj.payload ∧ x.idx < 10) := by
  simp only [validation_accesses, List.mem_append, List.mem_map, mem_idxs] at hx
  rcases hx with ((((((h | h) | h) | h) | h) | h) | h) | h <;>
    obtain ⟨i, hi, rfl⟩ := h <;> simp <;> omega

/-! ## The checksum -/

theorem crc_step1_xor (a b : Nat) : crc_step1 (a ^^^ b) = crc_step1 a ^^^ crc_step1 b := by
  unfold crc_step1
  have h := @Nat.xor_mod_two_eq_one a b
  simp only [Nat.shiftRight_one, Nat.xor_div_two]
  by_cases ha : a % 2 = 1 <;> by_cases hb : b % 2 = 1
  · have hab : ¬ (a ^^^ b) % 2 = 1 := by rw [h]; simp [ha, hb]
    rw [if_neg hab, if_pos ha, if_pos hb]
    rw [Nat.xor_zero, Nat.xor_assoc, Nat.xor_comm 3988292384, Nat.xor_assoc (b / 2), Nat.xor_self,
      Nat.xor_zero]
  · have hab : (a ^^^ b) % 2 = 1 := by rw [h]; simp [ha, hb]
    rw [if_pos hab, if_pos ha, if_neg hb]
    rw [Nat.xor_zero, Nat.xor_assoc, Nat.xor_comm (b / 2), Nat.xor_assoc]
  · have hab : (a ^^^ b) % 2 = 1 := by rw [h]; simp [ha, hb]
    rw [if_pos hab, if_neg ha, if_pos hb]
    rw [Nat.xor_zero, Nat.xor_assoc]
  · have hab : ¬ (a ^^^ b) % 2 = 1 := by rw [h]; simp [ha, hb]
    rw [if_neg hab, if_neg ha, if_neg hb]
    simp only [Nat.xor_zero]

theorem crc_step8_xor (a b : Nat) : crc_step8 (a ^^^ b) = crc_step8 a ^^^ crc_step8 b := by
  simp only [crc_step8, crc_step1_xor]

/-- Two registers run over the same bytes: their difference runs over zero bytes. -/
theorem crc_raw_xor (m : List Nat) (a b : Nat) :
    crc_raw a m ^^^ crc_raw b m = crc_step8^[m.length] (a ^^^ b) := by
  induction m generalizing a b with
  | nil => simp [crc_raw]
  | cons c m ih =>
    have := ih (crc_step8 (a ^^^ c)) (crc_step8 (b ^^^ c))
    simp only [crc_raw, List.foldl_cons] at this ⊢
    rw [this, List.length_cons, Function.iterate_succ_apply, ← crc_step8_xor]
    congr 2
    rw [Nat.xor_assoc, Nat.xor_comm c, Nat.xor_assoc, Nat.xor_self, Nat.xor_zero]

/-- The checksums of two messages that differ in one byte differ by a value that depends only on
the two bytes and on the number of bytes after them. -/
theorem crc32_std_diff (front back : List Nat) (x y : Nat) :
    crc32_std (front ++ x :: back) ^^^ crc32_std (front ++ y :: back) =
      crc_step8^[back.length + 1] (x ^^^ y) := by
  have hx : crc_raw 4294967295 (front ++ x :: back) =
      crc_raw (crc_step8 (crc_raw 4294967295 front ^^^ x)) back := by
    simp [crc_raw, List.foldl_append]
  have hy : crc_raw 4294967295 (front ++ y :: back) =
      crc_raw (crc_step8 (crc_raw 4294967295 front ^^^ y)) back := by
    simp [crc_raw, List.foldl_append]
  have hc : ∀ u v : Nat, (u ^^^ 4294967295) ^^^ (v ^^^ 4294967295) = u ^^^ v := by
    intro u v
    rw [Nat.xor_assoc, Nat.xor_comm v, ← Nat.xor_assoc 4294967295, Nat.xor_self, Nat.zero_xor]
  have hu : ∀ u : Nat, (u ^^^ x) ^^^ (u ^^^ y) = x ^^^ y := by
    intro u
    rw [Nat.xor_comm u x, Nat.xor_assoc, ← Nat.xor_assoc u, Nat.xor_self, Nat.zero_xor]
  show (crc_raw 4294967295 (front ++ x :: back) ^^^ 4294967295) ^^^
    (crc_raw 4294967295 (front ++ y :: back) ^^^ 4294967295) = _
  rw [hc, hx, hy, crc_raw_xor, ← crc_step8_xor, hu, Function.iterate_succ_apply]

set_option maxRecDepth 1000000 in
/-- A non-zero byte followed by at most 8 zero bytes leaves a register that is non-zero both in
its low 24 bits and in its bits 8 to 31. -/
theorem crc_step8_table : ∀ n < 9, ∀ d < 256, d ≠ 0 →
    crc_step8^[n + 1] d % 16777216 ≠ 0 ∧ crc_step8^[n + 1] d % 4294967296 / 256 ≠ 0 := by
  decide!

theorem xor_mod_two_pow (a b n : Nat) : (a ^^^ b) % 2 ^ n = a % 2 ^ n ^^^ b % 2 ^ n := by
  apply Nat.eq_of_testBit_eq
  intro i
  simp only [Nat.testBit_mod_two_pow, Nat.testBit_xor]
  cases decide (i < n) <;> simp

theorem xor_div_two_pow (a b n : Nat) : (a ^^^ b) / 2 ^ n = a / 2 ^ n ^^^ b / 2 ^ n := by
  apply Nat.eq_of_testBit_eq
  intro i
  simp only [← Nat.shiftRight_eq_div_pow, Nat.testBit_shiftRight, Nat.testBit_xor]

theorem xor_ne_zero_of_ne {x y : Nat} (h : x ≠ y) : x ^^^ y ≠ 0 := by
  intro h0
  apply h
  have : (x ^^^ y) ^^^ y = 0 ^^^ y := by rw [h0]
  rwa [Nat.xor_assoc, Nat.xor_self, Nat.xor_zero, Nat.zero_xor] at this

/-- Two messages of bytes that differ in one position, with at most 8 bytes after it, have
standard checksums that differ both in their low 24 bits and in their bits 8 to 31. -/
theorem crc32_std_single_byte (front back : List Nat) (x y : Nat) (hx : x < 256) (hy : y < 256)
    (hne : x ≠ y) (hback : back.length < 9) :
    (crc32_std (front ++ x :: back) ^^^ crc32_std (front ++ y :: back)) % 16777216 ≠ 0 ∧
    (crc32_std (front ++ x :: back) ^^^ crc32_std (front ++ y :: back)) % 4294967296 / 256 ≠ 0
    := by
  rw [crc32_std_diff]
  exact crc_step8_table back.length hback (x ^^^ y)
    (@Nat.xor_lt_two_pow x y 8 hx hy) (xor_ne_zero_of_ne hne)

/-- Checksums that differ in their low 24 bits and in their bits 8 to 31 have object
representations that differ within their first three bytes, in either byte order. -/
theorem u32_bytes_take_three_ne (e : Endian) (c1 c2 : Nat)
    (hlow : (c1 ^^^ c2) % 16777216 ≠ 0) (hhigh : (c1 ^^^ c2) % 4294967296 / 256 ≠ 0) :
    (u32_bytes e (c1 % 4294967296)).take 3 ≠ (u32_bytes e (c2 % 4294967296)).take 3 := by
  intro heq
  cases e with
  | little =>
    simp only [u32_bytes, List.take_succ_cons, List.take_zero, List.cons.injEq, and_true] at heq
    obtain ⟨e0, e1, e2⟩ := heq
    have hm : c1 % 2 ^ 24 = c2 % 2 ^ 24 := by norm_num; omega
    apply hlow
    have := xor_mod_two_pow c1 c2 24
    rw [hm, Nat.xor_self] at this
    simpa using this
  | big =>
    simp only [u32_bytes, List.take_succ_cons, List.take_zero, List.cons.injEq, and_true] at heq
    obtain ⟨e0, e1, e2⟩ := heq
    have hm : c1 % 2 ^ 32 / 2 ^ 8 = c2 % 2 ^ 32 / 2 ^ 8 := by norm_num; omega
    apply hhigh
    have := xor_div_two_pow (c1 % 2 ^ 32) (c2 % 2 ^ 32) 8
    rw [hm, Nat.xor_self, ← xor_mod_two_pow] at this
    simpa using this

/-! ## Memory safety of the read handler and of the checksum call -/

/-- Every access of a whole run of the read handler: a write to the buffer of the caller
happens only when `maxLen ≥ 18` and then below index 18, hence below `maxLen`; every access to
`payload` is below index 18; and the MAC primitive reads `payload` only below index 10. -/
theorem on_read_validation_char_accesses_in_bounds (E : Env) (junk : Obj → Nat → Nat)
    (maxLen : Int) (w : World) :
    ∃ new, (on_read_validation_char E junk maxLen w).2.accesses = w.accesses ++ new ∧
      ∀ x ∈ new,
        (x.obj = Obj.outBuf → x.wr = true ∧ (x.idx : Int) < maxLen ∧ x.idx < 18) ∧
        (x.obj = Obj.payload → x.idx < 18) ∧
        (x.who = Who.hmac → x.wr = false → x.obj = Obj.payload ∧ x.idx < 10) := by
  obtain ⟨k, hk, hacc⟩ := validation_built_accesses E junk w
  rw [on_read_validation_char_eq]
  split
  · refine ⟨validation_accesses k, hacc, fun x hx => ?_⟩
    have := validation_accesses_in_bounds k hk x hx
    exact ⟨fun h => absurd h this.1, this.2.1, this.2.2.2⟩
  · rename_i hcap
    refine ⟨validation_accesses k ++ ((idxs 0 18).map (Access.mk Who.memcpy false Obj.payload) ++
      (idxs 0 18).map (Access.mk Who.memcpy true Obj.outBuf)), ?_, fun x hx => ?_⟩
    · simp [memcpy, World.put, World.touch, hacc, List.append_assoc]
    · rcases List.mem_append.1 hx with hx | hx
      · have := validation_accesses_in_bounds k hk x hx
        exact ⟨fun h => absurd h this.1, this.2.1, this.2.2.2⟩
      · simp only [List.mem_append, List.mem_map, mem_idxs] at hx
        rcases hx with h | h <;> obtain ⟨i, hi, rfl⟩ := h <;> simp <;> omega

/-- The checksum collaborator reads exactly bytes 0-8 of `manuf`, and nothing else does on its
behalf. -/
theorem advertise_accesses_crc32 :
    advertise_accesses.filter (fun x => decide (x.who = Who.crc32)) =
      (idxs 0 9).map (Access.mk Who.crc32 false Obj.manuf) := by
  decide

/-! ## The properties of the specification -/

set_option maxRecDepth 100000 in
/-- C1, evaluated on the code: on a little-endian target with the standard CRC-32 and
`SHORT_ID = 01 02 03 04 05 06`, the payload handed to the radio transport has 12 bytes and
starts with `01 01 00 01 02 03 04 05 06`, but it does not end with the CRC32 of these nine
bytes. The checksum is `0x0DECD6F4`, stored as `F4 D6 EC 0D`; the array `manuf` has 12 bytes,
the copy of the checksum starts at index 9, so its fourth byte goes to index 12, beyond the
array, and the payload ends with `06 F4 D6 EC`. -/
theorem advertise_start_checksum_cut :
    last_radio_payload (advertise_start env_le junk_example (world_example 20)) =
      some [0x01, 0x01, 0x00, 0x01, 0x02, 0x03, 0x04, 0x05, 0x06, 0xF4, 0xD6, 0xEC] ∧
    u32_bytes Endian.little (crc32_std [0x01, 0x01, 0x00, 0x01, 0x02, 0x03, 0x04, 0x05, 0x06]) =
      [0xF4, 0xD6, 0xEC, 0x0D] ∧
    ((advertise_start env_le junk_example (world_example 20)).mem Obj.manuf).length = 12 ∧
    Access.mk Who.memcpy true Obj.manuf 12 ∈
      (advertise_start env_le junk_example (world_example 20)).accesses := by
  decide

/-- C2: for every identity of 6 bytes, every 32-bit reading `now` of the clock, every key and
every capacity `maxLen ≥ 18` that the buffer really has, when the MAC primitive delivers the
tag of the message `identity ‖ now`, the read handler returns 18 and the first 18 bytes of the
buffer are the identity, the four bytes of `now` and the first 8 bytes of that tag; the message
has 10 bytes and is the one the handler hands to the primitive. -/
theorem on_read_validation_char_signs (E : Env) (junk : Obj → Nat → Nat) (maxLen : Int)
    (w : World) (now : Nat) (tag : List Nat)
    (hid : (w.mem Obj.SHORT_ID).length = 6)
    (hclk : E.get_unix_time w.clock_reads = now) (hnow : now < 4294967296)
    (hmac : E.hmac_sha256_truncate (w.mem Obj.secret_key) w.secret_len
      (w.mem Obj.SHORT_ID ++ u32_bytes E.endian now) 8 = some tag)
    (htag : 8 ≤ tag.length)
    (hcap : 18 ≤ maxLen) (hbuf : maxLen ≤ ((w.mem Obj.outBuf).length : Int)) :
    (on_read_validation_char E junk maxLen w).1 = 18 ∧
    ((on_read_validation_char E junk maxLen w).2.mem Obj.outBuf).take 18 =
      w.mem Obj.SHORT_ID ++ u32_bytes E.endian now ++ tag.take 8 ∧
    (w.mem Obj.SHORT_ID ++ u32_bytes E.endian now).length = 10 ∧
    Call.hmac_sha256_truncate (w.mem Obj.secret_key) w.secret_len
      (w.mem Obj.SHORT_ID ++ u32_bytes E.endian now) 10 8 ∈
        (on_read_validation_char E junk maxLen w).2.calls := by
  obtain ⟨a, b, c, d, e, f, h⟩ := list_length_six hid
  have hret := on_read_validation_char_ret E junk maxLen w
  rw [if_neg (by omega)] at hret
  refine ⟨hret, ?_, ?_, ?_⟩
  rotate_left
  · obtain ⟨p, q, r, s, hu⟩ := u32_bytes_four E.endian now
    simp [hid, hu]
  · rw [on_read_validation_char_calls E junk maxLen w a b c d e f h, hclk,
      Nat.mod_eq_of_lt hnow, ← h]
    simp
  rw [on_read_validation_char_out E junk maxLen w a b c d e f h hcap, hclk,
    Nat.mod_eq_of_lt hnow, ← h, hmac, sig_after_some junk tag htag]
  have hl : (w.mem Obj.SHORT_ID ++ u32_bytes E.endian now ++ tag.take 8).length = 18 := by
    obtain ⟨p, q, r, s, hu⟩ := u32_bytes_four E.endian now
    simp [hid, hu, List.length_take, htag]
  have := writeBytes_take (w.mem Obj.SHORT_ID ++ u32_bytes E.endian now ++ tag.take 8)
    (w.mem Obj.outBuf) (by rw [hl]; omega)
  rw [hl] at this
  exact this

set_option maxRecDepth 100000 in
/-- Witness of C2: identity `01 .. 06`, clock reading 100, capacity 18 in a buffer of 20. -/
theorem on_read_validation_char_signs_witness :
    (on_read_validation_char env_le junk_example 18 (world_example 20)).1 = 18 ∧
    ((on_read_validation_char env_le junk_example 18 (world_example 20)).2.mem Obj.outBuf).take 18
      = [1, 2, 3, 4, 5, 6] ++ [100, 0, 0, 0] ++
        [0xA0, 0xA1, 0xA2, 0xA3, 0xA4, 0xA5, 0xA6, 0xA7] :=
  ⟨(on_read_validation_char_signs env_le junk_example 18 (world_example 20) 100
      [0xA0, 0xA1, 0xA2, 0xA3, 0xA4, 0xA5, 0xA6, 0xA7, 0xA8, 0xA9]
      (by decide) rfl (by decide) rfl (by decide) (by decide) (by decide)).1,
   (on_read_validation_char_signs env_le junk_example 18 (world_example 20) 100
      [0xA0, 0xA1, 0xA2, 0xA3, 0xA4, 0xA5, 0xA6, 0xA7, 0xA8, 0xA9]
      (by decide) rfl (by decide) rfl (by decide) (by decide) (by decide)).2.1⟩

/-- C3: for every capacity `maxLen < 18`, zero and negative ones included, and every content of
the buffer, the read handler returns 0, the buffer is unchanged, and its access log gains no
access to the buffer at all. -/
theorem on_read_validation_char_too_small (E : Env) (junk : Obj → Nat → Nat) (maxLen : Int)
    (w : World) (hcap : maxLen < 18) :
    (on_read_validation_char E junk maxLen w).1 = 0 ∧
    (on_read_validation_char E junk maxLen w).2.mem Obj.outBuf = w.mem Obj.outBuf ∧
    ∃ new, (on_read_validation_char E junk maxLen w).2.accesses = w.accesses ++ new ∧
      ∀ x ∈ new, x.obj ≠ Obj.outBuf := by
  rw [on_read_validation_char_eq, if_pos hcap]
  refine ⟨rfl, validation_built_outBuf E junk w, ?_⟩
  obtain ⟨k, hk, hacc⟩ := validation_built_accesses E junk w
  exact ⟨validation_accesses k, hacc, fun x hx => (validation_accesses_in_bounds k hk x hx).1⟩

set_option maxRecDepth 100000 in
/-- Witness of C3: capacity 17, and the negative capacity -1, on a buffer of 20 bytes. -/
theorem on_read_validation_char_too_small_witness :
    ((17 : Int) < 18 ∧
      (on_read_validation_char env_le junk_example 17 (world_example 20)).1 = 0 ∧
      (on_read_validation_char env_le junk_example 17 (world_example 20)).2.mem Obj.outBuf =
        List.replicate 20 0xAA) ∧
    ((-1 : Int) < 18 ∧
      (on_read_validation_char env_le junk_example (-1) (world_example 20)).1 = 0) :=
  ⟨⟨by decide,
    (on_read_validation_char_too_small env_le junk_example 17 (world_example 20) (by decide)).1,
    (on_read_validation_char_too_small env_le junk_example 17 (world_example 20)
      (by decide)).2.1⟩,
   ⟨by decide,
    (on_read_validation_char_too_small env_le junk_example (-1) (world_example 20)
      (by decide)).1⟩⟩

set_option maxRecDepth 100000 in
/-- C4 fails on the code: with a MAC primitive that fails and writes nothing, a read with
capacity 18 still returns 18, and bytes 10-17 of the output are the bytes `C0 .. C7` that the
local `sig` happened to hold, never written by anyone. -/
theorem failed_mac_is_not_surfaced :
    env_le_failing.hmac_sha256_truncate ((world_example 18).mem Obj.secret_key)
      (world_example 18).secret_len [1, 2, 3, 4, 5, 6, 100, 0, 0, 0] 8 = none ∧
    (on_read_validation_char env_le_failing junk_example 18 (world_example 18)).1 = 18 ∧
    (on_read_validation_char env_le_failing junk_example 18 (world_example 18)).2.mem Obj.outBuf
      = [1, 2, 3, 4, 5, 6, 100, 0, 0, 0, 0xC0, 0xC1, 0xC2, 0xC3, 0xC4, 0xC5, 0xC6, 0xC7] := by
  decide

/-- C4 as amended: the read handler does not look at the outcome of the MAC primitive. When the
primitive fails and writes nothing, every read with capacity `maxLen ≥ 18` still returns 18,
and bytes 10-17 of the output are the indeterminate initial content of the local `sig`. -/
theorem on_read_validation_char_ignores_mac_failure (E : Env) (junk : Obj → Nat → Nat)
    (maxLen : Int) (w : World)
    (hid : (w.mem Obj.SHORT_ID).length = 6)
    (hfail : E.hmac_sha256_truncate (w.mem Obj.secret_key) w.secret_len
      (w.mem Obj.SHORT_ID ++ u32_bytes E.endian (E.get_unix_time w.clock_reads % 4294967296)) 8
        = none)
    (hcap : 18 ≤ maxLen) (hbuf : maxLen ≤ ((w.mem Obj.outBuf).length : Int)) :
    (on_read_validation_char E junk maxLen w).1 = 18 ∧
    (((on_read_validation_char E junk maxLen w).2.mem Obj.outBuf).drop 10).take 8 =
      (idxs 0 8).map (junk Obj.sig) := by
  obtain ⟨a, b, c, d, e, f, h⟩ := list_length_six hid
  have hret := on_read_validation_char_ret E junk maxLen w
  rw [if_neg (by omega)] at hret
  refine ⟨hret, ?_⟩
  rw [on_read_validation_char_out E junk maxLen w a b c d e f h hcap, ← h, hfail]
  obtain ⟨p, q, r, s, hu⟩ :=
    u32_bytes_four E.endian (E.get_unix_time w.clock_reads % 4294967296)
  rw [writeBytes_eq _ _ 0 (by simp [hid, hu, sig_after, idxs]; omega)]
  simp [h, hu, sig_after, idxs]

set_option maxRecDepth 100000 in
/-- Witness of the amended C4: the failing primitive, capacity 18, stack bytes `C0 .. C7`. -/
theorem on_read_validation_char_ignores_mac_failure_witness :
    (on_read_validation_char env_le_failing junk_example 18 (world_example 18)).1 = 18 ∧
    (((on_read_validation_char env_le_failing junk_example 18 (world_example 18)).2.mem
      Obj.outBuf).drop 10).take 8 = (idxs 0 8).map (junk_example Obj.sig) :=
  on_read_validation_char_ignores_mac_failure env_le_failing junk_example 18 (world_example 18)
    (by decide) rfl (by decide) (by decide)

/-- C5: for every device state, whatever the stack, the target and the reader buffer, bytes 3-8
of the advertisement payload handed to the radio transport and bytes 0-5 of a successful
validation response built from the same `SHORT_ID` are the same six bytes, those of
`SHORT_ID`. -/
theorem identity_bytes_agree (E E' : Env) (junk junk' : Obj → Nat → Nat) (maxLen : Int)
    (w w' : World)
    (hid : (w.mem Obj.SHORT_ID).length = 6)
    (hsame : w'.mem Obj.SHORT_ID = w.mem Obj.SHORT_ID)
    (hcap : 18 ≤ maxLen) (hbuf : maxLen ≤ ((w'.mem Obj.outBuf).length : Int)) :
    (on_read_validation_char E' junk' maxLen w').1 = 18 ∧
    ∃ p, last_radio_payload (advertise_start E junk w) = some p ∧
      (p.drop 3).take 6 = w.mem Obj.SHORT_ID ∧
      (p.drop 3).take 6 = ((on_read_validation_char E' junk' maxLen w').2.mem Obj.outBuf).take 6
    := by
  obtain ⟨a, b, c, d, e, f, h⟩ := list_length_six hid
  have hret := on_read_validation_char_ret E' junk' maxLen w'
  rw [if_neg (by omega)] at hret
  refine ⟨hret, _, advertise_start_payload E junk w a b c d e f h, ?_, ?_⟩
  · simp [h]
  · rw [on_read_validation_char_out E' junk' maxLen w' a b c d e f (hsame.trans h) hcap]
    obtain ⟨p, q, r, s, hu⟩ :=
      u32_bytes_four E'.endian (E'.get_unix_time w'.clock_reads % 4294967296)
    have hlen := sig_after_length junk' (E'.hmac_sha256_truncate (w'.mem Obj.secret_key)
      w'.secret_len ([a, b, c, d, e, f] ++
        u32_bytes E'.endian (E'.get_unix_time w'.clock_reads % 4294967296)) 8)
    obtain ⟨s0, s1, s2, s3, s4, s5, s6, s7, hs⟩ := list_length_eight hlen
    rw [hs, hu, writeBytes_eq _ _ 0 (by simp; omega)]
    simp

set_option maxRecDepth 100000 in
/-- Witness of C5: the device `01 .. 06`, advertised on a little-endian target and read on a
big-endian one with another stack. -/
theorem identity_bytes_agree_witness :
    (on_read_validation_char env_be_failing (fun _ _ => 0) 18 (world_example 18)).1 = 18 ∧
    ∃ p, last_radio_payload (advertise_start env_le junk_example (world_example 20)) = some p ∧
      (p.drop 3).take 6 = [1, 2, 3, 4, 5, 6] ∧
      (p.drop 3).take 6 =
        ((on_read_validation_char env_be_failing (fun _ _ => 0) 18 (world_example 18)).2.mem
          Obj.outBuf).take 6 :=
  identity_bytes_agree env_le env_be_failing junk_example (fun _ _ => 0) 18 (world_example 20)
    (world_example 18) (by decide) rfl (by decide) (by decide)

/-- C9: neither procedure changes the identifier or the key: for every world, target, stack and
capacity, `SHORT_ID`, `secret_key` and `secret_len` are after `advertise_start` and after
`on_read_validation_char`, on either side of the capacity check, what they were before. -/
theorem globals_unchanged (E : Env) (junk : Obj → Nat → Nat) (maxLen : Int) (w : World) :
    ((advertise_start E junk w).mem Obj.SHORT_ID = w.mem Obj.SHORT_ID ∧
      (advertise_start E junk w).mem Obj.secret_key = w.mem Obj.secret_key ∧
      (advertise_start E junk w).secret_len = w.secret_len) ∧
    ((on_read_validation_char E junk maxLen w).2.mem Obj.SHORT_ID = w.mem Obj.SHORT_ID ∧
      (on_read_validation_char E junk maxLen w).2.mem Obj.secret_key = w.mem Obj.secret_key ∧
      (on_read_validation_char E junk maxLen w).2.secret_len = w.secret_len) := by
  refine ⟨advertise_start_globals E junk w, ?_⟩
  have hg := validation_built_globals E junk w
  rw [on_read_validation_char_eq]
  split
  · exact hg
  · simpa [memcpy, World.put, World.touch, Function.update] using hg

/-- C10, evaluated on the code: in every run of `advertise_start`, whatever the target, the
stack and the world, the array `manuf` has 12 bytes and `memcpy (&manuf[9], &crc, 4)` writes
index 12 of it, one past its last byte. -/
theorem advertise_start_writes_past_manuf (E : Env) (junk : Obj → Nat → Nat) (w : World) :
    ((advertise_start E junk w).mem Obj.manuf).length = 12 ∧
    Access.mk Who.memcpy true Obj.manuf 12 ∈ (advertise_start E junk w).accesses := by
  refine ⟨advertise_start_manuf_length E junk w, ?_⟩
  rw [advertise_start_accesses]
  exact List.mem_append_right _ (by decide)

/-- C6: with the standard CRC-32 as checksum, two identities of 6 bytes that differ in exactly
one position `k` give nine-byte headers that differ in exactly one byte, and then the checksums
`advertise_start` computes differ, and so do the checksum bytes (from offset 9 on) of the two
payloads handed to the radio transport, in either byte order. -/
theorem advertise_checksum_changes (E : Env) (junk1 junk2 : Obj → Nat → Nat) (w1 w2 : World)
    (k : Nat)
    (hcrc : E.crc32 = crc32_std)
    (h1 : (w1.mem Obj.SHORT_ID).length = 6) (h2 : (w2.mem Obj.SHORT_ID).length = 6)
    (hb1 : ∀ x ∈ w1.mem Obj.SHORT_ID, x < 256) (hb2 : ∀ x ∈ w2.mem Obj.SHORT_ID, x < 256)
    (hk : k < 6)
    (hne : (w1.mem Obj.SHORT_ID).getD k 0 ≠ (w2.mem Obj.SHORT_ID).getD k 0)
    (heq : ∀ j, j ≠ k → (w1.mem Obj.SHORT_ID).getD j 0 = (w2.mem Obj.SHORT_ID).getD j 0) :
    (advertise_start E junk1 w1).mem Obj.crc ≠ (advertise_start E junk2 w2).mem Obj.crc ∧
    ∃ p1 p2, last_radio_payload (advertise_start E junk1 w1) = some p1 ∧
      last_radio_payload (advertise_start E junk2 w2) = some p2 ∧
      p1.drop 9 ≠ p2.drop 9 := by
  obtain ⟨a1, b1, c1, d1, e1, f1, g1⟩ := list_length_six h1
  obtain ⟨a2, b2, c2, d2, e2, f2, g2⟩ := list_length_six h2
  rw [g1] at hb1 hne heq
  rw [g2] at hb2 hne heq
  simp only [List.mem_cons, List.mem_singleton, forall_eq_or_imp, forall_eq, List.not_mem_nil,
    false_implies, implies_true, and_true] at hb1 hb2
  have q0 := heq 0
  have q1 := heq 1
  have q2 := heq 2
  have q3 := heq 3
  have q4 := heq 4
  have q5 := heq 5
  simp only [List.getD_cons_zero, List.getD_cons_succ] at q0 q1 q2 q3 q4 q5
  -- the two checksums differ in the three bytes that reach the payload
  have main : (u32_bytes E.endian
        (crc32_std [1, 1, 0, a1, b1, c1, d1, e1, f1] % 4294967296)).take 3 ≠
      (u32_bytes E.endian (crc32_std [1, 1, 0, a2, b2, c2, d2, e2, f2] % 4294967296)).take 3 := by
    have hk' : k = 0 ∨ k = 1 ∨ k = 2 ∨ k = 3 ∨ k = 4 ∨ k = 5 := by omega
    rcases hk' with rfl | rfl | rfl | rfl | rfl | rfl
    · simp only [List.getD_cons_zero, List.getD_cons_succ] at hne
      obtain rfl := q1 (by decide); obtain rfl := q2 (by decide); obtain rfl := q3 (by decide)
      obtain rfl := q4 (by decide); obtain rfl := q5 (by decide)
      have := crc32_std_single_byte [1, 1, 0] [b1, c1, d1, e1, f1] a1 a2 hb1.1 hb2.1 hne (by simp)
      exact u32_bytes_take_three_ne E.endian _ _ this.1 this.2
    · simp only [List.getD_cons_zero, List.getD_cons_succ] at hne
      obtain rfl := q0 (by decide); obtain rfl := q2 (by decide); obtain rfl := q3 (by decide)
      obtain rfl := q4 (by decide); obtain rfl := q5 (by decide)
      have := crc32_std_single_byte [1, 1, 0, a1] [c1, d1, e1, f1] b1 b2 hb1.2.1 hb2.2.1 hne
        (by simp)
      exact u32_bytes_take_three_ne E.endian _ _ this.1 this.2
    · simp only [List.getD_cons_zero, List.getD_cons_succ] at hne
      obtain rfl := q0 (by decide); obtain rfl := q1 (by decide); obtain rfl := q3 (by decide)
      obtain rfl := q4 (by decide); obtain rfl := q5 (by decide)
      have := crc32_std_single_byte [1, 1, 0, a1, b1] [d1, e1, f1] c1 c2 hb1.2.2.1 hb2.2.2.1 hne
        (by simp)
      exact u32_bytes_take_three_ne E.endian _ _ this.1 this.2
    · simp only [List.getD_cons_zero, List.getD_cons_succ] at hne
      obtain rfl := q0 (by decide); obtain rfl := q1 (by decide); obtain rfl := q2 (by decide)
      obtain rfl := q4 (by decide); obtain rfl := q5 (by decide)
      have := crc32_std_single_byte [1, 1, 0, a1, b1, c1] [e1, f1] d1 d2 hb1.2.2.2.1
        hb2.2.2.2.1 hne (by simp)
      exact u32_bytes_take_three_ne E.endian _ _ this.1 this.2
    · simp only [List.getD_cons_zero, List.getD_cons_succ] at hne
      obtain rfl := q0 (by decide); obtain rfl := q1 (by decide); obtain rfl := q2 (by decide)
      obtain rfl := q3 (by decide); obtain rfl := q5 (by decide)
      have := crc32_std_single_byte [1, 1, 0, a1, b1, c1, d1] [f1] e1 e2 hb1.2.2.2.2.1
        hb2.2.2.2.2.1 hne (by simp)
      exact u32_bytes_take_three_ne E.endian _ _ this.1 this.2
    · simp only [List.getD_cons_zero, List.getD_cons_succ] at hne
      obtain rfl := q0 (by decide); obtain rfl := q1 (by decide); obtain rfl := q2 (by decide)
      obtain rfl := q3 (by decide); obtain rfl := q4 (by decide)
      have := crc32_std_single_byte [1, 1, 0, a1, b1, c1, d1, e1] [] f1 f2 hb1.2.2.2.2.2
        hb2.2.2.2.2.2 hne (by simp)
      exact u32_bytes_take_three_ne E.endian _ _ this.1 this.2
  constructor
  · rw [advertise_start_crc E junk1 w1 a1 b1 c1 d1 e1 f1 g1,
      advertise_start_crc E junk2 w2 a2 b2 c2 d2 e2 f2 g2, hcrc]
    intro hc
    exact main (by rw [hc])
  · refine ⟨_, _, advertise_start_payload E junk1 w1 a1 b1 c1 d1 e1 f1 g1,
      advertise_start_payload E junk2 w2 a2 b2 c2 d2 e2 f2 g2, ?_⟩
    rw [hcrc]
    simpa using main

set_option maxRecDepth 100000 in
/-- Witness of C6: the identities `01 02 03 04 05 06` and `01 02 03 FF 05 06`, which differ at
position 3. -/
theorem advertise_checksum_changes_witness :
    (advertise_start env_le junk_example (world_example 20)).mem Obj.crc ≠
      (advertise_start env_le junk_example
        (world_example_ff 20)).mem
        Obj.crc ∧
    ∃ p1 p2,
      last_radio_payload (advertise_start env_le junk_example (world_example 20)) = some p1 ∧
      last_radio_payload (advertise_start env_le junk_example
        (world_example_ff 20))
        = some p2 ∧
      p1.drop 9 ≠ p2.drop 9 :=
  advertise_checksum_changes env_le junk_example junk_example (world_example 20)
    (world_example_ff 20)
    3 rfl (by decide) (by decide) (by decide) (by decide) (by decide) (by decide)
    (by
      intro j hj
      match j, hj with
      | 0, _ => rfl
      | 1, _ => rfl
      | 2, _ => rfl
      | 3, h => exact absurd rfl h
      | 4, _ => rfl
      | 5, _ => rfl
      | n + 6, _ => rfl)

set_option maxRecDepth 100000 in
/-- C8 fails on the code, twice. On a big-endian target a read at clock reading 100 puts
`00 00 00 64` at bytes 6-9, which decode as a little-endian integer to 1677721600, not 100.
And on a little-endian target with the standard CRC-32 and identity `01 .. 06`, the checksum of
bytes 0-8 is `0x0DECD6F4` while the payload bytes from offset 9 on, `F4 D6 EC`, decode to
`0xECD6F4`. -/
theorem byte_order_is_not_fixed :
    (((on_read_validation_char env_be_failing junk_example 18 (world_example 18)).2.mem
        Obj.outBuf).drop 6).take 4 = [0x00, 0x00, 0x00, 0x64] ∧
    le_decode ((((on_read_validation_char env_be_failing junk_example 18
        (world_example 18)).2.mem Obj.outBuf).drop 6).take 4) = 1677721600 ∧
    last_radio_payload (advertise_start env_le junk_example (world_example 20)) =
      some [0x01, 0x01, 0x00, 0x01, 0x02, 0x03, 0x04, 0x05, 0x06, 0xF4, 0xD6, 0xEC] ∧
    crc32_std [0x01, 0x01, 0x00, 0x01, 0x02, 0x03, 0x04, 0x05, 0x06] = 0x0DECD6F4 ∧
    le_decode [0xF4, 0xD6, 0xEC] = 0xECD6F4 := by
  decide

theorem le_decode_u32_bytes (v : Nat) (h : v < 4294967296) :
    le_decode (u32_bytes Endian.little v) = v := by
  simp only [u32_bytes, le_decode]
  omega

/-- C8 as amended: a 32-bit field is serialised by copying its object representation, that is
in the byte order of the target. For every reading `now` of the clock, bytes 6-9 of a
successful validation response are the four bytes of `now` in that order; on a little-endian
target they decode as a little-endian integer to exactly `now`. -/
theorem timestamp_in_target_byte_order (E : Env) (junk : Obj → Nat → Nat) (maxLen : Int)
    (w : World) (now : Nat)
    (hid : (w.mem Obj.SHORT_ID).length = 6)
    (hclk : E.get_unix_time w.clock_reads = now) (hnow : now < 4294967296)
    (hcap : 18 ≤ maxLen) (hbuf : maxLen ≤ ((w.mem Obj.outBuf).length : Int)) :
    (((on_read_validation_char E junk maxLen w).2.mem Obj.outBuf).drop 6).take 4 =
      u32_bytes E.endian now ∧
    (E.endian = Endian.little →
      le_decode ((((on_read_validation_char E junk maxLen w).2.mem Obj.outBuf).drop 6).take 4)
        = now) := by
  have key : (((on_read_validation_char E junk maxLen w).2.mem Obj.outBuf).drop 6).take 4 =
      u32_bytes E.endian now := by
    obtain ⟨a, b, c, d, e, f, h⟩ := list_length_six hid
    rw [on_read_validation_char_out E junk maxLen w a b c d e f h hcap, hclk,
      Nat.mod_eq_of_lt hnow]
    obtain ⟨p, q, r, s, hu⟩ := u32_bytes_four E.endian now
    have hlen := sig_after_length junk (E.hmac_sha256_truncate (w.mem Obj.secret_key)
      w.secret_len ([a, b, c, d, e, f] ++ u32_bytes E.endian now) 8)
    obtain ⟨s0, s1, s2, s3, s4, s5, s6, s7, hs⟩ := list_length_eight hlen
    rw [hs, hu, writeBytes_eq _ _ 0 (by simp; omega)]
    simp
  refine ⟨key, fun hle => ?_⟩
  rw [key, hle, le_decode_u32_bytes now hnow]

set_option maxRecDepth 100000 in
/-- Witness of the amended C8: on the little-endian target the reading 100 is `64 00 00 00`. -/
theorem timestamp_in_target_byte_order_witness :
    (((on_read_validation_char env_le junk_example 18 (world_example 20)).2.mem
        Obj.outBuf).drop 6).take 4 = [0x64, 0x00, 0x00, 0x00] ∧
    (env_le.endian = Endian.little →
      le_decode ((((on_read_validation_char env_le junk_example 18 (world_example 20)).2.mem
        Obj.outBuf).drop 6).take 4) = 100) :=
  timestamp_in_target_byte_order env_le junk_example 18 (world_example 20) 100
    (by decide) rfl (by decide) (by decide) (by decide)

/-! ## Further facts on the two procedures -/

theorem idxs_length (n off : Nat) : (idxs off n).length = n := by
  induction n generalizing off with
  | zero => rfl
  | succ n ih => simp [idxs, ih]

theorem readBytes_length (l : List Nat) (off n : Nat) : (readBytes l off n).length = n := by
  simp [readBytes, idxs_length]

theorem u32_bytes_injective (e : Endian) (a b : Nat) (ha : a < 4294967296)
    (hb : b < 4294967296) (h : u32_bytes e a = u32_bytes e b) : a = b := by
  cases e <;>
    simp only [u32_bytes, List.cons.injEq, and_true] at h <;> omega

/-- Bytes 0-9 of a successful validation response: the identifier and the four bytes of the
clock reading, whatever the MAC primitive does. -/
theorem on_read_validation_char_head (E : Env) (junk : Obj → Nat → Nat) (maxLen : Int)
    (w : World) (hid : (w.mem Obj.SHORT_ID).length = 6)
    (hcap : 18 ≤ maxLen) (hbuf : maxLen ≤ ((w.mem Obj.outBuf).length : Int)) :
    ((on_read_validation_char E junk maxLen w).2.mem Obj.outBuf).take 10 =
      w.mem Obj.SHORT_ID ++
        u32_bytes E.endian (E.get_unix_time w.clock_reads % 4294967296) := by
  obtain ⟨a, b, c, d, e, f, h⟩ := list_length_six hid
  rw [on_read_validation_char_out E junk maxLen w a b c d e f h hcap]
  obtain ⟨p, q, r, s, hu⟩ :=
    u32_bytes_four E.endian (E.get_unix_time w.clock_reads % 4294967296)
  have hlen := sig_after_length junk (E.hmac_sha256_truncate (w.mem Obj.secret_key)
    w.secret_len ([a, b, c, d, e, f] ++
      u32_bytes E.endian (E.get_unix_time w.clock_reads % 4294967296)) 8)
  obtain ⟨s0, s1, s2, s3, s4, s5, s6, s7, hs⟩ := list_length_eight hlen
  rw [hs, hu, writeBytes_eq _ _ 0 (by simp; omega), h]
  simp

/-- The buffer of the caller after a read with enough capacity, whatever `SHORT_ID` holds: 18
bytes stored from index 0 on. -/
theorem on_read_validation_char_out_shape (E : Env) (junk : Obj → Nat → Nat) (maxLen : Int)
    (w : World) (hcap : 18 ≤ maxLen) :
    ∃ bs : List Nat, bs.length = 18 ∧
      (on_read_validation_char E junk maxLen w).2.mem Obj.outBuf =
        writeBytes (w.mem Obj.outBuf) 0 bs := by
  refine ⟨readBytes ((validation_built E junk w).mem Obj.payload) 0 18,
    readBytes_length _ _ _, ?_⟩
  rw [on_read_validation_char_eq, if_neg (by omega)]
  simp [memcpy, World.put, World.touch, Function.update, validation_built_outBuf]

/-! ## Further properties of the specification -/

/-- C11: two successful reads on targets of the same byte order, with different identifiers of
6 bytes or different 32-bit clock readings, leave outputs that differ within bytes 0-9, hence
as 18-byte outputs, whatever the keys and the MAC primitives; and two devices with different
identifiers hand different 12-byte payloads to the radio transport. -/
theorem payloads_injective (E1 E2 : Env) (junk1 junk2 : Obj → Nat → Nat) (w1 w2 : World)
    (h1 : (w1.mem Obj.SHORT_ID).length = 6) (h2 : (w2.mem Obj.SHORT_ID).length = 6) :
    (∀ m1 m2 : Int, E1.endian = E2.endian →
      18 ≤ m1 → m1 ≤ ((w1.mem Obj.outBuf).length : Int) →
      18 ≤ m2 → m2 ≤ ((w2.mem Obj.outBuf).length : Int) →
      (w1.mem Obj.SHORT_ID ≠ w2.mem Obj.SHORT_ID ∨
        E1.get_unix_time w1.clock_reads % 4294967296 ≠
          E2.get_unix_time w2.clock_reads % 4294967296) →
      (on_read_validation_char E1 junk1 m1 w1).1 = 18 ∧
      (on_read_validation_char E2 junk2 m2 w2).1 = 18 ∧
      ((on_read_validation_char E1 junk1 m1 w1).2.mem Obj.outBuf).take 10 ≠
        ((on_read_validation_char E2 junk2 m2 w2).2.mem Obj.outBuf).take 10 ∧
      ((on_read_validation_char E1 junk1 m1 w1).2.mem Obj.outBuf).take 18 ≠
        ((on_read_validation_char E2 junk2 m2 w2).2.mem Obj.outBuf).take 18) ∧
    (w1.mem Obj.SHORT_ID ≠ w2.mem Obj.SHORT_ID →
      ∃ p1 p2, last_radio_payload (advertise_start E1 junk1 w1) = some p1 ∧
        last_radio_payload (advertise_start E2 junk2 w2) = some p2 ∧
        p1.length = 12 ∧ p2.length = 12 ∧ p1 ≠ p2) := by
  constructor
  · intro m1 m2 hend hc1 hb1 hc2 hb2 hdiff
    have r1 := on_read_validation_char_ret E1 junk1 m1 w1
    have r2 := on_read_validation_char_ret E2 junk2 m2 w2
    rw [if_neg (by omega)] at r1 r2
    have t1 := on_read_validation_char_head E1 junk1 m1 w1 h1 hc1 hb1
    have t2 := on_read_validation_char_head E2 junk2 m2 w2 h2 hc2 hb2
    have ne10 : ((on_read_validation_char E1 junk1 m1 w1).2.mem Obj.outBuf).take 10 ≠
        ((on_read_validation_char E2 junk2 m2 w2).2.mem Obj.outBuf).take 10 := by
      rw [t1, t2, hend]
      intro heq
      obtain ⟨hi, hu⟩ := List.append_inj heq (h1.trans h2.symm)
      rcases hdiff with hd | hd
      · exact hd hi
      · exact hd (u32_bytes_injective E2.endian _ _ (Nat.mod_lt _ (by decide))
          (Nat.mod_lt _ (by decide)) hu)
    refine ⟨r1, r2, ne10, fun h18 => ne10 ?_⟩
    have := congrArg (List.take 10) h18
    simpa [List.take_take] using this
  · intro hd
    obtain ⟨a1, b1, c1, d1, e1, f1, g1⟩ := list_length_six h1
    obtain ⟨a2, b2, c2, d2, e2, f2, g2⟩ := list_length_six h2
    obtain ⟨p, q, r, s, hu1⟩ := u32_bytes_four E1.endian
      (E1.crc32 [1, 1, 0, a1, b1, c1, d1, e1, f1] % 4294967296)
    obtain ⟨p', q', r', s', hu2⟩ := u32_bytes_four E2.endian
      (E2.crc32 [1, 1, 0, a2, b2, c2, d2, e2, f2] % 4294967296)
    refine ⟨_, _, advertise_start_payload E1 junk1 w1 a1 b1 c1 d1 e1 f1 g1,
      advertise_start_payload E2 junk2 w2 a2 b2 c2 d2 e2 f2 g2, ?_, ?_, ?_⟩
    · simp [hu1]
    · simp [hu2]
    · rw [hu1, hu2]
      intro heq
      apply hd
      rw [g1, g2]
      simp only [List.cons_append, List.nil_append, List.cons.injEq] at heq
      simp only [List.cons.injEq, and_true]
      exact ⟨heq.2.2.2.1, heq.2.2.2.2.1, heq.2.2.2.2.2.1, heq.2.2.2.2.2.2.1,
        heq.2.2.2.2.2.2.2.1, heq.2.2.2.2.2.2.2.2.1⟩

set_option maxRecDepth 100000 in
/-- Witness of C11: the device `01 .. 06` read at clock readings 100 and 101, and the devices
`01 02 03 04 05 06` and `01 02 03 FF 05 06` advertised. -/
theorem payloads_injective_witness :
    (((on_read_validation_char env_le junk_example 18 (world_example 20)).2.mem Obj.outBuf).take
        18 ≠
      ((on_read_validation_char env_le_later junk_example 18 (world_example 20)).2.mem
        Obj.outBuf).take 18) ∧
    ∃ p1 p2,
      last_radio_payload (advertise_start env_le junk_example (world_example 20)) = some p1 ∧
      last_radio_payload (advertise_start env_le junk_example (world_example_ff 20)) = some p2 ∧
      p1.length = 12 ∧ p2.length = 12 ∧ p1 ≠ p2 :=
  ⟨((payloads_injective env_le env_le_later junk_example junk_example (world_example 20)
      (world_example 20) (by decide) (by decide)).1 18 18 rfl (by decide) (by decide)
      (by decide) (by decide) (Or.inr (by decide))).2.2.2,
   (payloads_injective env_le env_le junk_example junk_example (world_example 20)
      (world_example_ff 20) (by decide) (by decide)).2 (by decide)⟩

/-- C12: on the success path the read handler changes only the first 18 bytes of the buffer:
for every capacity `maxLen ≥ 18` that the buffer really has and every content of the buffer,
the bytes at index 18 and above are unchanged, and so is the length of the buffer. -/
theorem on_read_validation_char_tail_unchanged (E : Env) (junk : Obj → Nat → Nat)
    (maxLen : Int) (w : World)
    (hcap : 18 ≤ maxLen) (hbuf : maxLen ≤ ((w.mem Obj.outBuf).length : Int)) :
    (on_read_validation_char E junk maxLen w).1 = 18 ∧
    ((on_read_validation_char E junk maxLen w).2.mem Obj.outBuf).drop 18 =
      (w.mem Obj.outBuf).drop 18 ∧
    ((on_read_validation_char E junk maxLen w).2.mem Obj.outBuf).length =
      (w.mem Obj.outBuf).length := by
  have hret := on_read_validation_char_ret E junk maxLen w
  rw [if_neg (by omega)] at hret
  obtain ⟨bs, hl, hout⟩ := on_read_validation_char_out_shape E junk maxLen w hcap
  refine ⟨hret, ?_, ?_⟩
  · have := writeBytes_drop bs (w.mem Obj.outBuf) (by rw [hl]; omega)
    rw [hl] at this
    rw [hout, this]
  · rw [hout, writeBytes_length]

set_option maxRecDepth 100000 in
/-- Witness of C12: capacity 19 on a buffer of 20 bytes `AA`: bytes 18 and 19 are still `AA`. -/
theorem on_read_validation_char_tail_unchanged_witness :
    (on_read_validation_char env_le junk_example 19 (world_example 20)).1 = 18 ∧
    ((on_read_validation_char env_le junk_example 19 (world_example 20)).2.mem Obj.outBuf).drop 18
      = [0xAA, 0xAA] ∧
    ((on_read_validation_char env_le junk_example 19 (world_example 20)).2.mem Obj.outBuf).length
      = 20 :=
  on_read_validation_char_tail_unchanged env_le junk_example 19 (world_example 20)
    (by decide) (by decide)

/-- C13: in every run of the read handler, whatever the capacity, the world at the capacity
check already holds exactly one reading of the clock followed by exactly one call of the MAC
primitive, on the 10 bytes `SHORT_ID ‖ ts`. A run with `maxLen < 18` and a run with
`maxLen ≥ 18` from the same world therefore make the same calls and leave the same memory
outside the buffer of the caller; they differ in the result, 0 against 18, and in the final
copy of the 18 bytes of `payload` into the buffer, which the short run does not make. -/
theorem on_read_validation_char_same_work (E : Env) (junk : Obj → Nat → Nat) (w : World)
    (hid : (w.mem Obj.SHORT_ID).length = 6) :
    ((validation_built E junk w).calls = w.calls ++
        [Call.get_unix_time,
         Call.hmac_sha256_truncate (w.mem Obj.secret_key) w.secret_len
          (w.mem Obj.SHORT_ID ++
            u32_bytes E.endian (E.get_unix_time w.clock_reads % 4294967296)) 10 8] ∧
      (w.mem Obj.SHORT_ID ++
        u32_bytes E.endian (E.get_unix_time w.clock_reads % 4294967296)).length = 10 ∧
      (validation_built E junk w).clock_reads = w.clock_reads + 1) ∧
    (∀ maxLen : Int,
      (on_read_validation_char E junk maxLen w).2.calls = (validation_built E junk w).calls ∧
      (on_read_validation_char E junk maxLen w).2.clock_reads =
        (validation_built E junk w).clock_reads) ∧
    (∀ m1 m2 : Int, m1 < 18 → 18 ≤ m2 →
      (on_read_validation_char E junk m1 w).1 = 0 ∧
      (on_read_validation_char E junk m2 w).1 = 18 ∧
      (on_read_validation_char E junk m1 w).2 = validation_built E junk w ∧
      (on_read_validation_char E junk m2 w).2 =
        memcpy Obj.outBuf 0 Obj.payload 0 18 (validation_built E junk w) ∧
      (on_read_validation_char E junk m1 w).2.mem Obj.outBuf = w.mem Obj.outBuf ∧
      (∀ o, o ≠ Obj.outBuf →
        (on_read_validation_char E junk m1 w).2.mem o =
          (on_read_validation_char E junk m2 w).2.mem o) ∧
      (on_read_validation_char E junk m2 w).2.accesses =
        (on_read_validation_char E junk m1 w).2.accesses ++
          ((idxs 0 18).map (Access.mk Who.memcpy false Obj.payload) ++
            (idxs 0 18).map (Access.mk Who.memcpy true Obj.outBuf))) := by
  obtain ⟨a, b, c, d, e, f, h⟩ := list_length_six hid
  refine ⟨⟨?_, ?_, ?_⟩, ?_, ?_⟩
  · rw [validation_built_calls E junk w a b c d e f h, h]
  · obtain ⟨p, q, r, s, hu⟩ :=
      u32_bytes_four E.endian (E.get_unix_time w.clock_reads % 4294967296)
    simp [hid, hu]
  · simp only [validation_built, alloc, store_u32, memcpy, call_get_unix_time,
      call_hmac_sha256_truncate, World.put, World.touch, World.called]
    split <;> rfl
  · intro maxLen
    rw [on_read_validation_char_eq]
    split
    · exact ⟨rfl, rfl⟩
    · exact ⟨rfl, rfl⟩
  · intro m1 m2 hm1 hm2
    have e1 : on_read_validation_char E junk m1 w = (0, validation_built E junk w) := by
      rw [on_read_validation_char_eq, if_pos hm1]
    have e2 : on_read_validation_char E junk m2 w =
        (18, memcpy Obj.outBuf 0 Obj.payload 0 18 (validation_built E junk w)) := by
      rw [on_read_validation_char_eq, if_neg (by omega)]
    rw [e1, e2]
    refine ⟨rfl, rfl, rfl, rfl, validation_built_outBuf E junk w, ?_, ?_⟩
    · intro o ho
      simp [memcpy, World.put, World.touch, Function.update, ho]
    · simp [memcpy, World.put, World.touch]

set_option maxRecDepth 100000 in
/-- Witness of C13: the device `01 .. 06` at clock reading 100, read with capacities 5 and 18:
both runs make the same two calls. -/
theorem on_read_validation_char_same_work_witness :
    (on_read_validation_char env_le junk_example 5 (world_example 20)).2.calls =
      [Call.get_unix_time,
       Call.hmac_sha256_truncate [0x74, 0x65, 0x73, 0x74, 0x2D, 0x6B, 0x65, 0x79] 8
        [1, 2, 3, 4, 5, 6, 100, 0, 0, 0] 10 8] ∧
    (on_read_validation_char env_le junk_example 18 (world_example 20)).2.calls =
      [Call.get_unix_time,
       Call.hmac_sha256_truncate [0x74, 0x65, 0x73, 0x74, 0x2D, 0x6B, 0x65, 0x79] 8
        [1, 2, 3, 4, 5, 6, 100, 0, 0, 0] 10 8] ∧
    (on_read_validation_char env_le junk_example 5 (world_example 20)).1 = 0 ∧
    (on_read_validation_char env_le junk_example 18 (world_example 20)).1 = 18 :=
  ⟨((on_read_validation_char_same_work env_le junk_example (world_example 20)
      (by decide)).2.1 5).1.trans
    (on_read_validation_char_same_work env_le junk_example (world_example 20)
      (by decide)).1.1,
   ((on_read_validation_char_same_work env_le junk_example (world_example 20)
      (by decide)).2.1 18).1.trans
    (on_read_validation_char_same_work env_le junk_example (world_example 20)
      (by decide)).1.1,
   ((on_read_validation_char_same_work env_le junk_example (world_example 20)
      (by decide)).2.2 5 18 (by decide) (by decide)).1,
   ((on_read_validation_char_same_work env_le junk_example (world_example 20)
      (by decide)).2.2 5 18 (by decide) (by decide)).2.1⟩

/-- C14: for every device state with an identifier of 6 bytes, `advertise_start` makes exactly
one call of the radio transport, with the service identifier `SERVICE_UUID` of 16 bytes, the
vendor tag `0x1234` and a payload of 12 bytes that starts with `01 01 00`; the payload is a
function of `SHORT_ID` alone, and so is the checksum: two runs with the same `SHORT_ID` compute
the same checksum and hand over the same payload, whatever the rest of the world and the
contents of the stack. -/
theorem advertise_start_payload_of_short_id (E : Env) (junk1 junk2 : Obj → Nat → Nat)
    (w1 w2 : World)
    (hid : (w1.mem Obj.SHORT_ID).length = 6)
    (hsame : w2.mem Obj.SHORT_ID = w1.mem Obj.SHORT_ID) :
    SERVICE_UUID.length = 16 ∧
    ∃ p : List Nat, p.length = 12 ∧ p.take 3 = [0x01, 0x01, 0x00] ∧
      (p.drop 3).take 6 = w1.mem Obj.SHORT_ID ∧
      (advertise_start E junk1 w1).calls = w1.calls ++
        [Call.crc32 (p.take 9) 9,
         Call.ble_advertise_with_service_and_manufacturer SERVICE_UUID 0x1234 p 12] ∧
      (advertise_start E junk2 w2).calls = w2.calls ++
        [Call.crc32 (p.take 9) 9,
         Call.ble_advertise_with_service_and_manufacturer SERVICE_UUID 0x1234 p 12] ∧
      last_radio_payload (advertise_start E junk1 w1) = some p ∧
      last_radio_payload (advertise_start E junk2 w2) = some p ∧
      (advertise_start E junk1 w1).mem Obj.crc = (advertise_start E junk2 w2).mem Obj.crc := by
  obtain ⟨a, b, c, d, e, f, h⟩ := list_length_six hid
  obtain ⟨p, q, r, s, hu⟩ := u32_bytes_four E.endian
    (E.crc32 [1, 1, 0, a, b, c, d, e, f] % 4294967296)
  have c1 := advertise_start_calls E junk1 w1 a b c d e f h
  have c2 := advertise_start_calls E junk2 w2 a b c d e f (hsame.trans h)
  have p1 := advertise_start_payload E junk1 w1 a b c d e f h
  have p2 := advertise_start_payload E junk2 w2 a b c d e f (hsame.trans h)
  rw [hu] at c1 c2 p1 p2
  refine ⟨by decide, [1, 1, 0, a, b, c, d, e, f, p, q, r], by simp, by simp, by simp [h], ?_, ?_,
    ?_, ?_, ?_⟩
  · simpa [MANUFACTURER_ID] using c1
  · simpa [MANUFACTURER_ID] using c2
  · simpa using p1
  · simpa using p2
  · rw [advertise_start_crc E junk1 w1 a b c d e f h,
      advertise_start_crc E junk2 w2 a b c d e f (hsame.trans h)]

set_option maxRecDepth 100000 in
/-- Witness of C14: the device `01 .. 06` with two different stacks, two reader buffers and a
clock that has moved on. -/
theorem advertise_start_payload_of_short_id_witness :
    SERVICE_UUID.length = 16 ∧
    ∃ p : List Nat, p.length = 12 ∧ p.take 3 = [0x01, 0x01, 0x00] ∧
      (p.drop 3).take 6 = [1, 2, 3, 4, 5, 6] ∧
      (advertise_start env_le junk_example (world_example 20)).calls =
        (world_example 20).calls ++
          [Call.crc32 (p.take 9) 9,
           Call.ble_advertise_with_service_and_manufacturer SERVICE_UUID 0x1234 p 12] ∧
      (advertise_start env_le (fun _ _ => 0) (world_example_later 3)).calls =
        (world_example_later 3).calls ++
          [Call.crc32 (p.take 9) 9,
           Call.ble_advertise_with_service_and_manufacturer SERVICE_UUID 0x1234 p 12] ∧
      last_radio_payload (advertise_start env_le junk_example (world_example 20)) = some p ∧
      last_radio_payload
        (advertise_start env_le (fun _ _ => 0) (world_example_later 3))
          = some p ∧
      (advertise_start env_le junk_example (world_example 20)).mem Obj.crc =
        (advertise_start env_le (fun _ _ => 0) (world_example_later 3)).mem Obj.crc :=
  advertise_start_payload_of_short_id env_le junk_example (fun _ _ => 0) (world_example 20)
    (world_example_later 3) (by decide) rfl

set_option maxRecDepth 100000 in
/-- C7 fails on the code: with a MAC primitive that fails and writes nothing, two reads of the
same device at the same clock reading, with the same key and the same capacity 18, both return
18 but leave different outputs, `.. C0 C1 .. C7` and `.. 00 00 .. 00`: bytes 10-17 are what the
local `sig` happened to hold on each stack. -/
theorem failed_mac_breaks_determinism :
    env_le_failing.hmac_sha256_truncate ((world_example 18).mem Obj.secret_key)
      (world_example 18).secret_len [1, 2, 3, 4, 5, 6, 100, 0, 0, 0] 8 = none ∧
    (on_read_validation_char env_le_failing junk_example 18 (world_example 18)).1 = 18 ∧
    (on_read_validation_char env_le_failing (fun _ _ => 0) 18 (world_example 18)).1 = 18 ∧
    (on_read_validation_char env_le_failing junk_example 18 (world_example 18)).2.mem Obj.outBuf
      = [1, 2, 3, 4, 5, 6, 100, 0, 0, 0, 0xC0, 0xC1, 0xC2, 0xC3, 0xC4, 0xC5, 0xC6, 0xC7] ∧
    (on_read_validation_char env_le_failing (fun _ _ => 0) 18 (world_example 18)).2.mem Obj.outBuf
      = [1, 2, 3, 4, 5, 6, 100, 0, 0, 0, 0, 0, 0, 0, 0, 0, 0, 0] ∧
    ((on_read_validation_char env_le_failing junk_example 18 (world_example 18)).2.mem
        Obj.outBuf).take 18 ≠
      ((on_read_validation_char env_le_failing (fun _ _ => 0) 18 (world_example 18)).2.mem
        Obj.outBuf).take 18 := by
  decide

/-- C7 as amended: two reads with the same identity, the same clock reading and the same key,
with any capacities `≥ 18`, return the same value, 18, and leave the same bytes 0-9, whatever
the prior contents of the two buffers and of the two stacks and whatever the MAC primitive
does; when the primitive delivers its tag, of at least 8 bytes, the two reads leave the same
first 18 bytes. -/
theorem on_read_validation_char_deterministic (E : Env) (junk1 junk2 : Obj → Nat → Nat)
    (m1 m2 : Int) (w1 w2 : World)
    (hid : (w1.mem Obj.SHORT_ID).length = 6)
    (hsame : w2.mem Obj.SHORT_ID = w1.mem Obj.SHORT_ID)
    (hkey : w2.mem Obj.secret_key = w1.mem Obj.secret_key)
    (hlen : w2.secret_len = w1.secret_len)
    (hclk : E.get_unix_time w2.clock_reads = E.get_unix_time w1.clock_reads)
    (hc1 : 18 ≤ m1) (hb1 : m1 ≤ ((w1.mem Obj.outBuf).length : Int))
    (hc2 : 18 ≤ m2) (hb2 : m2 ≤ ((w2.mem Obj.outBuf).length : Int)) :
    (on_read_validation_char E junk1 m1 w1).1 = 18 ∧
    (on_read_validation_char E junk2 m2 w2).1 = 18 ∧
    ((on_read_validation_char E junk1 m1 w1).2.mem Obj.outBuf).take 10 =
      ((on_read_validation_char E junk2 m2 w2).2.mem Obj.outBuf).take 10 ∧
    (∀ tag : List Nat,
      E.hmac_sha256_truncate (w1.mem Obj.secret_key) w1.secret_len
        (w1.mem Obj.SHORT_ID ++
          u32_bytes E.endian (E.get_unix_time w1.clock_reads % 4294967296)) 8 = some tag →
      8 ≤ tag.length →
      ((on_read_validation_char E junk1 m1 w1).2.mem Obj.outBuf).take 18 =
        ((on_read_validation_char E junk2 m2 w2).2.mem Obj.outBuf).take 18) := by
  have r1 := on_read_validation_char_ret E junk1 m1 w1
  have r2 := on_read_validation_char_ret E junk2 m2 w2
  rw [if_neg (by omega)] at r1 r2
  refine ⟨r1, r2, ?_, ?_⟩
  · rw [on_read_validation_char_head E junk1 m1 w1 hid hc1 hb1,
      on_read_validation_char_head E junk2 m2 w2 (by rw [hsame]; exact hid) hc2 hb2,
      hsame, hclk]
  · intro tag hmac htag
    obtain ⟨a, b, c, d, e, f, h⟩ := list_length_six hid
    have key : ∀ (junk : Obj → Nat → Nat) (m : Int) (w : World),
        w.mem Obj.SHORT_ID = w1.mem Obj.SHORT_ID →
        w.mem Obj.secret_key = w1.mem Obj.secret_key →
        w.secret_len = w1.secret_len →
        E.get_unix_time w.clock_reads = E.get_unix_time w1.clock_reads →
        18 ≤ m → m ≤ ((w.mem Obj.outBuf).length : Int) →
        ((on_read_validation_char E junk m w).2.mem Obj.outBuf).take 18 =
          w1.mem Obj.SHORT_ID ++
            u32_bytes E.endian (E.get_unix_time w1.clock_reads % 4294967296) ++ tag.take 8 := by
      intro junk m w e1 e2 e3 e4 hc hb
      rw [on_read_validation_char_out E junk m w a b c d e f (e1.trans h) hc, e2, e3, e4, ← h,
        hmac, sig_after_some junk tag htag]
      have hl : (w1.mem Obj.SHORT_ID ++
          u32_bytes E.endian (E.get_unix_time w1.clock_reads % 4294967296) ++ tag.take 8).length
            = 18 := by
        obtain ⟨p, q, r, s, hu⟩ :=
          u32_bytes_four E.endian (E.get_unix_time w1.clock_reads % 4294967296)
        simp [hid, hu, List.length_take, htag]
      have := writeBytes_take (w1.mem Obj.SHORT_ID ++
        u32_bytes E.endian (E.get_unix_time w1.clock_reads % 4294967296) ++ tag.take 8)
        (w.mem Obj.outBuf) (by rw [hl]; omega)
      rw [hl] at this
      exact this
    rw [key junk1 m1 w1 rfl rfl rfl rfl hc1 hb1, key junk2 m2 w2 hsame hkey hlen hclk hc2 hb2]

set_option maxRecDepth 100000 in
/-- Witness of the amended C7: capacities 18 and 25, buffers of 20 bytes `AA` and of 30 bytes
`AA`, stacks `C0 C1 ..` and all zero, and a primitive that delivers its tag. -/
theorem on_read_validation_char_deterministic_witness :
    (on_read_validation_char env_le junk_example 18 (world_example 20)).1 = 18 ∧
    (on_read_validation_char env_le (fun _ _ => 0) 25 (world_example 30)).1 = 18 ∧
    ((on_read_validation_char env_le junk_example 18 (world_example 20)).2.mem Obj.outBuf).take 10
      = ((on_read_validation_char env_le (fun _ _ => 0) 25 (world_example 30)).2.mem
          Obj.outBuf).take 10 ∧
    ((on_read_validation_char env_le junk_example 18 (world_example 20)).2.mem Obj.outBuf).take 18
      = ((on_read_validation_char env_le (fun _ _ => 0) 25 (world_example 30)).2.mem
          Obj.outBuf).take 18 :=
  ⟨(on_read_validation_char_deterministic env_le junk_example (fun _ _ => 0) 18 25
      (world_example 20) (world_example 30) (by decide) rfl rfl rfl rfl
      (by decide) (by decide) (by decide) (by decide)).1,
   (on_read_validation_char_deterministic env_le junk_example (fun _ _ => 0) 18 25
      (world_example 20) (world_example 30) (by decide) rfl rfl rfl rfl
      (by decide) (by decide) (by decide) (by decide)).2.1,
   (on_read_validation_char_deterministic env_le junk_example (fun _ _ => 0) 18 25
      (world_example 20) (world_example 30) (by decide) rfl rfl rfl rfl
      (by decide) (by decide) (by decide) (by decide)).2.2.1,
   (on_read_validation_char_deterministic env_le junk_example (fun _ _ => 0) 18 25
      (world_example 20) (world_example 30) (by decide) rfl rfl rfl rfl
      (by decide) (by decide) (by decide) (by decide)).2.2.2
      [0xA0, 0xA1, 0xA2, 0xA3, 0xA4, 0xA5, 0xA6, 0xA7, 0xA8, 0xA9] rfl (by decide)⟩

end Tracker
